import Mathlib

set_option maxHeartbeats 1000000

set_option maxRecDepth 100000

/- Verification development for the protocol dispatch layer
   (`InspectorBackend`-style code: `SessionRouter`, `TargetBase`,
   `_AgentPrototype`, `DispatcherManager`).

   The embedding models the single-threaded router as a state machine:
   JS callback closures are identified by numeric ids, and every externally
   visible action (invoking a callback, scheduling a `setTimeout` task,
   handing a serialized envelope to the transport, reporting a protocol
   error, forwarding to a proxy connection) is recorded as an `Effect`.
   `setTimeout(..., 0)` deliveries are `scheduleError` / `scheduleDrainCheck`
   effects: they happen on a later macrotask tick, never synchronously.
   Diagnostic-only test hooks (`test.dumpProtocol`, `test.onMessageSent`,
   `test.onMessageReceived`) and the NodeJS URL patching (which rewrites
   only the `url` field of a message, a field no claim mentions) are not
   modelled. -/

deriving instance DecidableEq for Except

/-- Runtime values carried in protocol payloads. JS numbers are modelled by
integers (no claim involves float arithmetic) and a non-null object value is
modelled by an opaque reference; this preserves equality and `typeof`, which
is all the dispatch layer inspects. -/
inductive JSVal where
  | undef : JSVal
  | vNull : JSVal
  | vBool : Bool → JSVal
  | vNum : Int → JSVal
  | vStr : String → JSVal
  | vObjRef : Nat → JSVal
deriving DecidableEq, Repr

/-- The JS `typeof` operator restricted to the modelled values
(`typeof null` is `"object"`). -/
def typeof : JSVal → String
  | .undef => "undefined"
  | .vNull => "object"
  | .vBool _ => "boolean"
  | .vNum _ => "number"
  | .vStr _ => "string"
  | .vObjRef _ => "object"

/-- JS `Map.get` on an insertion-ordered association list. -/
def mapGet {α β : Type} [DecidableEq α] : List (α × β) → α → Option β
  | [], _ => none
  | p :: rest, k => if p.1 = k then some p.2 else mapGet rest k

/-- JS `Map.set` on an insertion-ordered association list: replaces the first
entry with the given key in place, otherwise appends at the end. -/
def mapSet {α β : Type} [DecidableEq α] : List (α × β) → α → β → List (α × β)
  | [], k, v => [(k, v)]
  | p :: rest, k, v => if p.1 = k then (k, v) :: rest else p :: mapSet rest k v

/-- JS `Map.delete` on an insertion-ordered association list. -/
def mapDelete {α β : Type} [DecidableEq α] : List (α × β) → α → List (α × β)
  | [], _ => []
  | p :: rest, k => if p.1 = k then mapDelete rest k else p :: mapDelete rest k

/-- JS `Set.add` on an insertion-ordered duplicate-free list. -/
def setAdd (l : List Nat) (x : Nat) : List Nat :=
  if x ∈ l then l else l ++ [x]

/-- JS `Set.delete` on an insertion-ordered duplicate-free list. -/
def setDelete (l : List Nat) (x : Nat) : List Nat :=
  l.filter (fun y => y ≠ x)

/-- The error object synthesized by `dispatchConnectionError` /
`dispatchUnregisterSessionError` and carried in incoming responses:
`{message, code, data}` with `data` always `null` for synthetic errors. -/
structure ErrObj where
  message : String
  code : Int
  data : Option Unit
deriving DecidableEq, Repr

/-- A protocol `result` / `params` object: named fields with runtime values. -/
abbrev JSObj : Type := List (String × JSVal)

/-- The wire envelope (fields of the TS `Message` type; the diagnostic-only
`url` field is omitted, it is only touched by NodeJS URL patching). -/
structure Message where
  id : Option Nat
  sessionId : Option String
  method : Option String
  params : Option JSObj
  error : Option ErrObj
  result : Option JSObj
deriving DecidableEq, Repr

/-- A pending entry in a session's callback map: the callback (identified by
a numeric id standing for the JS closure) plus the originating method name. -/
structure CallbackWithDebugInfo where
  callback : Nat
  method : String
deriving DecidableEq, Repr

/-- A proxy `Connection` held by a session: its identity and whether its
`_onMessage` handler has been installed (`setOnMessage`). -/
structure ProxyConn where
  pid : Nat
  hasOnMessage : Bool
deriving DecidableEq, Repr

/-- One record of `SessionRouter._sessions`: owning target (by id), the
pending-call map keyed by message id, and the optional proxy connection. -/
structure SessionEntry where
  target : Nat
  callbacks : List (Nat × CallbackWithDebugInfo)
  proxyConnection : Option ProxyConn
deriving DecidableEq, Repr

/-- The mutable state of a `SessionRouter`. `pendingResponsesCount` is an
integer exactly as in JS (it can drift independently of the callback maps). -/
structure SessionRouterState where
  connection : Nat
  lastMessageId : Nat
  pendingResponsesCount : Int
  pendingLongPollingMessageIds : List Nat
  sessions : List (String × SessionEntry)
  pendingScripts : List Nat
deriving DecidableEq, Repr

/-- `new SessionRouter(connection)`: fresh counters, empty maps. -/
def initialRouter (connection : Nat) : SessionRouterState :=
  ⟨connection, 1, 0, [], [], []⟩

/-- Externally visible actions of the router, in program order.
`invoke` is a synchronous callback invocation with `(error ?? null,
result ?? null)`; `scheduleError cb e` is `setTimeout(() => cb(e, null), 0)`,
i.e. delivery of a synthetic error on a later tick; `scheduleDrainCheck` is
the `setTimeout` retry of the drain barrier; `runScript` is the synchronous
invocation of a queued drain-barrier callback. -/
inductive Effect where
  | invoke : Nat → Option ErrObj → Option JSObj → Effect
  | scheduleError : Nat → ErrObj → Effect
  | sendRaw : Message → Effect
  | protocolError : String → Effect
  | consoleError : String → Effect
  | proxyForward : Nat → Message → Effect
  | dispatchEvent : Nat → Message → Effect
  | scheduleDrainCheck : Effect
  | runScript : Nat → Effect
deriving DecidableEq, Repr

def DevToolsStubErrorCode : Int := -32015

def GenericError : Int := -32000

def ConnectionClosedErrorCode : Int := -32001

/-- The long-polling allow-list (`LongPollingMethods`). -/
def LongPollingMethods : List String := ["CSS.takeComputedStyleUpdates"]

def isLongPolling (method : String) : Bool :=
  LongPollingMethods.contains method

def wrongSessionIdErrorText : String :=
  "Protocol Error: the message with wrong session id"

def wrongIdErrorText : String :=
  "Protocol Error: the message with wrong id"

def withoutMethodErrorText : String :=
  "Protocol Error: the message without method"

def proxyNoOnMessageErrorText : String :=
  "Protocol Error: the session has a proxyConnection with no _onMessage"

def multipleProxyWarningText : String :=
  "Multiple simultaneous proxy connections are currently unsupported"

/-- The error synthesized by `SessionRouter.dispatchUnregisterSessionError`. -/
def unregisterSessionErrorObj (method : String) : ErrObj :=
  ⟨"Session is unregistering, can\x27t dispatch pending call to " ++ method,
    ConnectionClosedErrorCode, none⟩

/-- The error synthesized by `SessionRouter.dispatchConnectionError`. -/
def connectionClosedErrorObj (method : String) : ErrObj :=
  ⟨"Connection is closed, can\x27t dispatch pending call to " ++ method,
    ConnectionClosedErrorCode, none⟩

/-- `SessionRouter.dispatchUnregisterSessionError({callback, method})`:
schedules `callback(error, null)` on the next tick. -/
def dispatchUnregisterSessionError (c : CallbackWithDebugInfo) : Effect :=
  .scheduleError c.callback (unregisterSessionErrorObj c.method)

/-- `SessionRouter.dispatchConnectionError(callback, method)`. -/
def dispatchConnectionError (callback : Nat) (method : String) : Effect :=
  .scheduleError callback (connectionClosedErrorObj method)

/-- `SessionRouter.registerSession(target, sessionId, proxyConnection?)`:
warns (does not reject) if a proxy connection is supplied while another
session already holds one, then inserts a fresh record with an empty
callback map, replacing any existing record for the same session id. -/
def registerSession (s : SessionRouterState) (target : Nat) (sessionId : String)
    (proxyConnection : Option ProxyConn) : SessionRouterState × List Effect :=
  let warnEffs : List Effect :=
    match proxyConnection with
    | none => []
    | some _ =>
        if s.sessions.any (fun p => p.2.proxyConnection.isSome) then
          [Effect.consoleError multipleProxyWarningText]
        else []
  ({ s with sessions := mapSet s.sessions sessionId ⟨target, [], proxyConnection⟩ }, warnEffs)

/-- `SessionRouter.unregisterSession(sessionId)`: no-op if absent, otherwise
force-fails every pending callback via `dispatchUnregisterSessionError`
(asynchronous delivery) and deletes the session record. -/
def unregisterSession (s : SessionRouterState) (sessionId : String) :
    SessionRouterState × List Effect :=
  match mapGet s.sessions sessionId with
  | none => (s, [])
  | some session =>
      ({ s with sessions := mapDelete s.sessions sessionId },
        session.callbacks.map (fun q => dispatchUnregisterSessionError q.2))

/-- `SessionRouter.sendMessage(sessionId, domain, method, params, callback)`:
allocates the next id, builds the envelope (params/sessionId omitted when
absent/empty), increments the pending count, tracks long-polling ids, and --
only if the session is known -- stores `(callback, method)` under the id and
hands the envelope to the transport. The `domain` argument is only consumed
by the unmodelled `test.onMessageSent` hook. -/
def sendMessage (s : SessionRouterState) (sessionId : String) (_domain : String)
    (method : String) (params : Option JSObj) (callback : Nat) :
    SessionRouterState × List Effect :=
  let messageId := s.lastMessageId
  let messageObject : Message :=
    ⟨some messageId, if sessionId = "" then none else some sessionId,
      some method, params, none, none⟩
  let s1 : SessionRouterState :=
    { s with
      lastMessageId := s.lastMessageId + 1,
      pendingResponsesCount := s.pendingResponsesCount + 1,
      pendingLongPollingMessageIds :=
        if isLongPolling method then setAdd s.pendingLongPollingMessageIds messageId
        else s.pendingLongPollingMessageIds }
  match mapGet s1.sessions sessionId with
  | none => (s1, [])
  | some session =>
      let session1 : SessionEntry :=
        { session with callbacks := mapSet session.callbacks messageId ⟨callback, method⟩ }
      ({ s1 with sessions := mapSet s1.sessions sessionId session1 },
        [Effect.sendRaw messageObject])

/-- `SessionRouter._hasOutstandingNonLongPollingRequests()`. -/
def hasOutstandingNonLongPollingRequests (s : SessionRouterState) : Bool :=
  decide ((0 : Int) <
    s.pendingResponsesCount - (s.pendingLongPollingMessageIds.length : Int))

/-- `SessionRouter._deprecatedRunAfterPendingDispatches(script?)`: enqueues
the script (when given) and schedules a drain check on the next tick. -/
def deprecatedRunAfterPendingDispatches (s : SessionRouterState)
    (script : Option Nat) : SessionRouterState × List Effect :=
  let s1 :=
    match script with
    | some sc => { s with pendingScripts := s.pendingScripts ++ [sc] }
    | none => s
  (s1, [Effect.scheduleDrainCheck])

/-- `SessionRouter._executeAfterPendingDispatches()`: when no non-long-polling
requests are outstanding, clears the queue first and then runs, in FIFO
order, exactly the scripts that were queued. -/
def executeAfterPendingDispatches (s : SessionRouterState) :
    SessionRouterState × List Effect :=
  if hasOutstandingNonLongPollingRequests s then (s, [])
  else ({ s with pendingScripts := [] }, s.pendingScripts.map Effect.runScript)

/-- The body of the `setTimeout` closure scheduled by
`_deprecatedRunAfterPendingDispatches`: drain if quiescent, otherwise
reschedule on the next tick. -/
def drainCheckTask (s : SessionRouterState) : SessionRouterState × List Effect :=
  if hasOutstandingNonLongPollingRequests s then
    deprecatedRunAfterPendingDispatches s none
  else executeAfterPendingDispatches s

/-- The proxy fan-out loop at the top of `SessionRouter._onMessage`: every
session holding a proxy connection whose `_onMessage` is installed receives
the raw message verbatim (and sets the suppress flag); a proxy connection
without `_onMessage` is reported as a protocol error and skipped. Returns
(`suppressUnknownMessageErrors`, effects in session order). -/
def proxyFanOut (msg : Message) : List (String × SessionEntry) → Bool × List Effect
  | [] => (false, [])
  | p :: rest =>
      match p.2.proxyConnection with
      | none => proxyFanOut msg rest
      | some proxy =>
          let acc := proxyFanOut msg rest
          if proxy.hasOnMessage then
            (true, Effect.proxyForward proxy.pid msg :: acc.2)
          else
            (acc.1, Effect.protocolError proxyNoOnMessageErrorText :: acc.2)

/-- `SessionRouter._onMessage(message)`: proxy fan-out first, then session
resolution (empty string default), then response correlation by id /
event dispatch / protocol errors, with "unknown session" and "unknown id"
errors suppressed when some proxy consumed the message. -/
def onMessage (s : SessionRouterState) (messageObject : Message) :
    SessionRouterState × List Effect :=
  let fanned := proxyFanOut messageObject s.sessions
  let suppressUnknownMessageErrors := fanned.1
  let sessionId := messageObject.sessionId.getD ""
  match mapGet s.sessions sessionId with
  | none =>
      (s, fanned.2 ++
        (if suppressUnknownMessageErrors then []
         else [Effect.protocolError wrongSessionIdErrorText]))
  | some session =>
      if session.proxyConnection.isSome then (s, fanned.2)
      else
        match messageObject.id with
        | some msgId =>
            let callback? := mapGet session.callbacks msgId
            let session1 : SessionEntry :=
              { session with callbacks := mapDelete session.callbacks msgId }
            let s1 : SessionRouterState :=
              { s with sessions := mapSet s.sessions sessionId session1 }
            match callback? with
            | none =>
                (s1, fanned.2 ++
                  (if suppressUnknownMessageErrors then []
                   else [Effect.protocolError wrongIdErrorText]))
            | some c =>
                let s2 : SessionRouterState :=
                  { s1 with
                    pendingResponsesCount := s1.pendingResponsesCount - 1,
                    pendingLongPollingMessageIds :=
                      setDelete s1.pendingLongPollingMessageIds msgId }
                let invokeEff := Effect.invoke c.callback messageObject.error messageObject.result
                if s2.pendingScripts.length ≠ 0 ∧
                    hasOutstandingNonLongPollingRequests s2 = false then
                  let drained := deprecatedRunAfterPendingDispatches s2 none
                  (drained.1, fanned.2 ++ invokeEff :: drained.2)
                else
                  (s2, fanned.2 ++ [invokeEff])
        | none =>
            match messageObject.method with
            | none => (s, fanned.2 ++ [Effect.protocolError withoutMethodErrorText])
            | some _ => (s, fanned.2 ++ [Effect.dispatchEvent session.target messageObject])

/-- One externally triggered turn of the single-threaded router: a public
API call, an incoming transport message, or a scheduled macrotask. -/
inductive Op where
  | register : Nat → String → Option ProxyConn → Op
  | unregister : String → Op
  | send : String → String → String → Option JSObj → Nat → Op
  | recv : Message → Op
  | runAfter : Option Nat → Op
  | drainTick : Op
  | execPending : Op
deriving DecidableEq, Repr

def applyOp (s : SessionRouterState) : Op → SessionRouterState × List Effect
  | .register t sid proxy => registerSession s t sid proxy
  | .unregister sid => unregisterSession s sid
  | .send sid d m p cb => sendMessage s sid d m p cb
  | .recv msg => onMessage s msg
  | .runAfter sc => deprecatedRunAfterPendingDispatches s sc
  | .drainTick => drainCheckTask s
  | .execPending => executeAfterPendingDispatches s

def stepState (s : SessionRouterState) (op : Op) : SessionRouterState :=
  (applyOp s op).1

def steps (s : SessionRouterState) (ops : List Op) : SessionRouterState :=
  ops.foldl stepState s

/-- Number of pending callbacks in one session whose method is not in the
long-polling allow-list. -/
def cbNonLP (cbs : List (Nat × CallbackWithDebugInfo)) : Nat :=
  cbs.countP (fun q => !(isLongPolling q.2.method))

/-- Total number of pending non-long-polling callbacks across all sessions. -/
def nlpTotal (s : SessionRouterState) : Nat :=
  (s.sessions.map (fun p => cbNonLP p.2.callbacks)).sum

/-- Concatenation of all pending-call ids across the session table, in order. -/
def allCallbackIds : List (String × SessionEntry) → List Nat
  | [] => []
  | p :: rest => p.2.callbacks.map Prod.fst ++ allCallbackIds rest

/-- Slack of the drain accounting: the pending count exceeds everything the
router can still decrement it for by at least `k`. -/
def drainGap (k : Nat) (s : SessionRouterState) : Prop :=
  (nlpTotal s : Int) + (s.pendingLongPollingMessageIds.length : Int) + (k : Int) ≤
    s.pendingResponsesCount

instance (k : Nat) (s : SessionRouterState) : Decidable (drainGap k s) := by
  unfold drainGap
  infer_instance

/-- Reachability invariant of the router state: pending-call ids are below
the id counter and globally duplicate-free, long-polling tracking covers the
stored long-polling methods, and the pending count dominates the tracked
callbacks plus the long-polling set. -/
def RouterInv (s : SessionRouterState) : Prop :=
  (∀ id ∈ s.pendingLongPollingMessageIds, id < s.lastMessageId) ∧
  (∀ p ∈ s.sessions, ∀ q ∈ p.2.callbacks, q.1 < s.lastMessageId) ∧
  (∀ p ∈ s.sessions, ∀ q ∈ p.2.callbacks,
    isLongPolling q.2.method = true → q.1 ∈ s.pendingLongPollingMessageIds) ∧
  ((s.sessions.map Prod.fst).Nodup) ∧
  ((allCallbackIds s.sessions).Nodup) ∧
  s.pendingLongPollingMessageIds.Nodup ∧
  drainGap 0 s

instance (s : SessionRouterState) : Decidable (RouterInv s) := by
  unfold RouterInv
  infer_instance

/-- A declared command parameter (`CommandParameter`): name, declared runtime
type name, optional flag. -/
structure CommandParameter where
  name : String
  type : String
  optional : Bool
deriving DecidableEq, Repr

/-- `JSON.stringify` of one parameter object as the generated schema creates
it (fields in declaration order). -/
def stringifyParameter (p : CommandParameter) : String :=
  "\x7b\"name\":\"" ++ p.name ++ "\",\"type\":\"" ++ p.type ++
    "\",\"optional\":" ++ (if p.optional then "true" else "false") ++ "\x7d"

/-- `JSON.stringify` of the declared parameter list (the "full declared
signature" embedded in the bad-argument-count error message). -/
def stringifyParameters (ps : List CommandParameter) : String :=
  "[" ++ String.intercalate "," (ps.map stringifyParameter) ++ "]"

def invalidNumberOfArgumentsMessage (method : String)
    (parameters : List CommandParameter) : String :=
  "Protocol Error: Invalid number of arguments for method \x27" ++ method ++
    "\x27 call. It must have the following arguments " ++
    stringifyParameters parameters ++ "\x27."

def invalidTypeMessage (method paramName typeName actualType : String) : String :=
  "Protocol Error: Invalid type of argument \x27" ++ paramName ++
    "\x27 for method \x27" ++ method ++ "\x27 call. It must be \x27" ++ typeName ++
    "\x27 but it is \x27" ++ actualType ++ "\x27."

def extraArgumentsMessage (method : String) (count : Nat) : String :=
  "Protocol Error: Extra " ++ toString count ++
    " arguments in a call to method \x27" ++ method ++ "\x27."

/-- The parameter loop of `_AgentPrototype._prepareParameters`, with the
enclosing function's full parameter list in scope for the error message.
`args.shift()` on an empty JS array yields `undefined` and consumes nothing;
on a non-empty one it consumes the head. On the first failure the error
callback is called exactly once and `null` is returned; this is modelled by
`Except.error` carrying the reported message. -/
def prepareParametersLoop (method : String) (fullParameters : List CommandParameter) :
    List CommandParameter → List JSVal → JSObj → Bool → Except String (Option JSObj)
  | [], args, acc, hasParams =>
      if args.length ≠ 0 then Except.error (extraArgumentsMessage method args.length)
      else Except.ok (if hasParams then some acc else none)
  | param :: rest, args, acc, hasParams =>
      if args.length = 0 ∧ param.optional = false then
        Except.error (invalidNumberOfArgumentsMessage method fullParameters)
      else
        let value := match args with | [] => JSVal.undef | v :: _ => v
        let args1 := args.tail
        if param.optional = true ∧ typeof value = "undefined" then
          prepareParametersLoop method fullParameters rest args1 acc hasParams
        else if typeof value ≠ param.type then
          Except.error (invalidTypeMessage method param.name param.type (typeof value))
        else
          prepareParametersLoop method fullParameters rest args1
            (mapSet acc param.name value) true

/-- `_AgentPrototype._prepareParameters(method, parameters, args, errorCallback)`:
`Except.ok none` is the `hasParams ? params : null` result for a call without
parameters; `Except.error msg` is a validation failure reported once through
the error callback. -/
def prepareParameters (method : String) (parameters : List CommandParameter)
    (args : List JSVal) : Except String (Option JSObj) :=
  prepareParametersLoop method parameters parameters args [] false

/-- What `_AgentPrototype._sendMessageToBackendPromise` does before any reply
arrives: a validation failure resolves the promise to `null` immediately
(after exactly one `console.error` with the recorded message) and never
reaches the transport; otherwise the prepared params go to
`SessionRouter.sendMessage` when the target still has a router, and to
`dispatchConnectionError` when it does not. -/
inductive BackendCallStep where
  | resolvedNull : String → BackendCallStep
  | sentViaRouter : Option JSObj → BackendCallStep
  | connectionErrorScheduled : BackendCallStep
deriving DecidableEq, Repr

def sendMessageToBackendPromise (method : String) (parameters : List CommandParameter)
    (args : List JSVal) (routerPresent : Bool) : BackendCallStep :=
  match prepareParameters method parameters args with
  | Except.error m => BackendCallStep.resolvedNull m
  | Except.ok params =>
      if routerPresent then BackendCallStep.sentViaRouter params
      else BackendCallStep.connectionErrorScheduled

/-- A promise settlement. The generated call surface is designed never to
produce `reject`. -/
inductive Resolved where
  | rNull : Resolved
  | rUndefined : Resolved
  | rVal : JSVal → Resolved
deriving DecidableEq, Repr

inductive Settle where
  | resolve : Resolved → Settle
  | reject : Resolved → Settle
deriving DecidableEq, Repr

def Settle.isResolve : Settle → Bool
  | .resolve _ => true
  | .reject _ => false

/-- `JSON.stringify` of an error object as logged by the call surface. -/
def stringifyErrObj (e : ErrObj) : String :=
  "\x7b\"message\":\"" ++ e.message ++ "\",\"code\":" ++ toString e.code ++
    ",\"data\":null\x7d"

def requestFailedMessage (method : String) (e : ErrObj) : String :=
  "Request " ++ method ++ " failed. " ++ stringifyErrObj e

/-- The reply callback installed by `_sendMessageToBackendPromise`:
on a backend error, log it unless suppressed or allow-listed, and resolve
`null`; on success resolve `result[replyArgs[0]]` when a result and at least
one declared reply field exist (`undefined` when the named field is absent),
and `undefined` otherwise. `replyArgs` is the `_replyArgs[method]` entry
registered for the command. -/
def promiseReplyCallback (suppressRequestErrors : Bool) (method : String)
    (replyArgs : List String) (error : Option ErrObj) (result : Option JSObj) :
    Settle × List Effect :=
  match error with
  | some e =>
      let effs : List Effect :=
        if suppressRequestErrors = false ∧ e.code ≠ DevToolsStubErrorCode ∧
            e.code ≠ GenericError ∧ e.code ≠ ConnectionClosedErrorCode then
          [Effect.consoleError (requestFailedMessage method e)]
        else []
      (Settle.resolve Resolved.rNull, effs)
  | none =>
      match result, replyArgs with
      | some r, a :: _ =>
          (Settle.resolve
            (match mapGet r a with
             | some v => Resolved.rVal v
             | none => Resolved.rUndefined), [])
      | _, _ => (Settle.resolve Resolved.rUndefined, [])

/-- The part of a parent `TargetBase` that its child's constructor reads:
the parent's router, which is `none` once the parent is disposed. -/
structure ParentInfo where
  router : Option SessionRouterState
deriving Repr

def targetConstructorErrorText : String :=
  "Either connection or sessionId (but not both) must be supplied for a child target"

/-- The `TargetBase` constructor: the fail-fast invariant check, the router
choice (reuse the parent's router for a child with a session id, else wrap
the explicit connection, else a factory-produced one), and the session
registration. The check throws before the router is built or any session is
registered. Eager agent/dispatcher materialization from the registry
snapshot is orthogonal to every claim and not modelled. -/
def targetBaseConstruct (_needsNodeJSPatching : Bool) (parentTarget : Option ParentInfo)
    (sessionId : String) (connection : Option Nat) (factoryConnection : Nat)
    (targetId : Nat) : Except String SessionRouterState :=
  if (parentTarget.isNone ∧ connection.isSome) ∨
      (parentTarget.isNone ∧ sessionId ≠ "") ∨
      (connection.isSome ∧ sessionId ≠ "") then
    Except.error targetConstructorErrorText
  else
    let fresh : SessionRouterState :=
      match connection with
      | some c => initialRouter c
      | none => initialRouter factoryConnection
    let router : SessionRouterState :=
      match parentTarget with
      | some p =>
          match p.router with
          | some r => if sessionId ≠ "" then r else fresh
          | none => fresh
      | none => fresh
    Except.ok (registerSession router targetId sessionId none).1

/-- The argument-validation policy in the words of the amended claim, to be
compared with the source embedding `prepareParameters`: for each declared
parameter in order, a required parameter with no arguments left fails with
the full-signature message; an optional parameter whose next argument is
absent or is the `undefined` value is skipped, consuming the argument when
one is present; otherwise one argument is consumed and a runtime-type
mismatch fails; leftover arguments after the declared parameters fail. -/
def claimValidate (method : String) (fullParameters : List CommandParameter) :
    List CommandParameter → List JSVal → JSObj → Bool → Except String (Option JSObj)
  | [], [], acc, hasParams => Except.ok (if hasParams then some acc else none)
  | [], v :: vs, _, _ => Except.error (extraArgumentsMessage method (v :: vs).length)
  | param :: rest, [], acc, hasParams =>
      if param.optional then claimValidate method fullParameters rest [] acc hasParams
      else Except.error (invalidNumberOfArgumentsMessage method fullParameters)
  | param :: rest, v :: vs, acc, hasParams =>
      if param.optional = true ∧ v = JSVal.undef then
        claimValidate method fullParameters rest vs acc hasParams
      else if typeof v ≠ param.type then
        Except.error (invalidTypeMessage method param.name param.type (typeof v))
      else
        claimValidate method fullParameters rest vs (mapSet acc param.name v) true

section MapLemmas

variable {α β : Type} [DecidableEq α]

theorem mapGet_mapSet_self (m : List (α × β)) (k : α) (v : β) :
    mapGet (mapSet m k v) k = some v := by
  induction m with
  | nil => simp [mapGet, mapSet]
  | cons p rest ih =>
      by_cases h : p.1 = k
      · simp [mapGet, mapSet, h]
      · simp [mapGet, mapSet, h, ih]

theorem mapGet_mapSet_ne (m : List (α × β)) (k k' : α) (v : β) (h : k' ≠ k) :
    mapGet (mapSet m k v) k' = mapGet m k' := by
  induction m with
  | nil => simp [mapGet, mapSet, Ne.symm h]
  | cons p rest ih =>
      by_cases hp : p.1 = k
      · have hpk' : ¬ p.1 = k' := by
          rw [hp]
          exact Ne.symm h
        simp [mapGet, mapSet, hp, hpk', Ne.symm h]
      · simp [mapGet, mapSet, hp, ih]

theorem mapGet_mapDelete_self (m : List (α × β)) (k : α) :
    mapGet (mapDelete m k) k = none := by
  induction m with
  | nil => simp [mapGet, mapDelete]
  | cons p rest ih =>
      by_cases h : p.1 = k
      · simp [mapDelete, h, ih]
      · simp [mapGet, mapDelete, h, ih]

theorem mapGet_mapDelete_ne (m : List (α × β)) (k k' : α) (h : k' ≠ k) :
    mapGet (mapDelete m k) k' = mapGet m k' := by
  induction m with
  | nil => simp [mapDelete]
  | cons p rest ih =>
      by_cases hp : p.1 = k
      · have hpk' : ¬ p.1 = k' := by
          rw [hp]
          exact Ne.symm h
        simp [mapGet, mapDelete, hp, hpk', Ne.symm h, ih]
      · simp [mapGet, mapDelete, hp, ih]

theorem mapGet_eq_some_mem {m : List (α × β)} {k : α} {v : β}
    (h : mapGet m k = some v) : (k, v) ∈ m := by
  induction m with
  | nil => simp [mapGet] at h
  | cons p rest ih =>
      by_cases hp : p.1 = k
      · simp only [mapGet, if_pos hp, Option.some.injEq] at h
        have hpv : p = (k, v) := by
          cases p
          simp_all
        rw [← hpv]
        exact List.mem_cons_self _ _
      · simp only [mapGet, if_neg hp] at h
        exact List.mem_cons_of_mem _ (ih h)

theorem mapGet_eq_none_iff {m : List (α × β)} {k : α} :
    mapGet m k = none ↔ ∀ p ∈ m, p.1 ≠ k := by
  induction m with
  | nil => simp [mapGet]
  | cons p rest ih =>
      by_cases hp : p.1 = k
      · simp [mapGet, hp]
      · simp [mapGet, hp, ih]

theorem mem_mapSet {m : List (α × β)} {k : α} {v : β} {p : α × β}
    (h : p ∈ mapSet m k v) : p = (k, v) ∨ p ∈ m := by
  induction m with
  | nil => simp [mapSet] at h; simp [h]
  | cons q rest ih =>
      by_cases hq : q.1 = k
      · simp [mapSet, hq] at h
        rcases h with h | h
        · left; exact h
        · right; simp [h]
      · simp [mapSet, hq] at h
        rcases h with h | h
        · right; simp [h]
        · rcases ih h with h' | h'
          · left; exact h'
          · right; simp [h']

theorem mem_mapDelete {m : List (α × β)} {k : α} {p : α × β}
    (h : p ∈ mapDelete m k) : p ∈ m ∧ p.1 ≠ k := by
  induction m with
  | nil => simp [mapDelete] at h
  | cons q rest ih =>
      by_cases hq : q.1 = k
      · simp [mapDelete, hq] at h
        rcases ih h with ⟨h1, h2⟩
        exact ⟨by simp [h1], h2⟩
      · simp [mapDelete, hq] at h
        rcases h with h | h
        · subst h
          exact ⟨by simp, hq⟩
        · rcases ih h with ⟨h1, h2⟩
          exact ⟨by simp [h1], h2⟩

theorem mapSet_append_of_get_none {m : List (α × β)} {k : α}
    (h : mapGet m k = none) (v : β) : mapSet m k v = m ++ [(k, v)] := by
  induction m with
  | nil => simp [mapSet]
  | cons p rest ih =>
      by_cases hp : p.1 = k
      · simp [mapGet, hp] at h
      · simp [mapGet, hp] at h
        simp [mapSet, hp, ih h]

theorem mapDelete_eq_of_get_none {m : List (α × β)} {k : α}
    (h : mapGet m k = none) : mapDelete m k = m := by
  induction m with
  | nil => simp [mapDelete]
  | cons p rest ih =>
      by_cases hp : p.1 = k
      · simp [mapGet, hp] at h
      · simp [mapGet, hp] at h
        simp [mapDelete, hp, ih h]

theorem mapSet_keys_nodup {m : List (α × β)} (h : (m.map Prod.fst).Nodup)
    (k : α) (v : β) : ((mapSet m k v).map Prod.fst).Nodup := by
  induction m with
  | nil => simp [mapSet]
  | cons p rest ih =>
      simp only [List.map_cons, List.nodup_cons] at h
      by_cases hp : p.1 = k
      · simp only [mapSet, if_pos hp, List.map_cons, List.nodup_cons]
        refine ⟨?_, h.2⟩
        rw [← hp]
        exact h.1
      · simp only [mapSet, if_neg hp, List.map_cons, List.nodup_cons]
        refine ⟨?_, ih h.2⟩
        intro hmem
        rcases List.mem_map.1 hmem with ⟨q, hq, hq1⟩
        rcases mem_mapSet hq with h' | h'
        · apply hp
          rw [← hq1, h']
        · exact h.1 (List.mem_map.2 ⟨q, h', hq1⟩)

theorem mapDelete_keys_nodup {m : List (α × β)} (h : (m.map Prod.fst).Nodup)
    (k : α) : ((mapDelete m k).map Prod.fst).Nodup := by
  induction m with
  | nil => simp [mapDelete]
  | cons p rest ih =>
      simp only [List.map_cons, List.nodup_cons] at h
      by_cases hp : p.1 = k
      · simp only [mapDelete, if_pos hp]
        exact ih h.2
      · simp only [mapDelete, if_neg hp, List.map_cons, List.nodup_cons]
        refine ⟨fun hmem => ?_, ih h.2⟩
        rcases List.mem_map.1 hmem with ⟨q, hq, hq1⟩
        exact h.1 (List.mem_map.2 ⟨q, (mem_mapDelete hq).1, hq1⟩)

end MapLemmas

theorem setAdd_length_of_not_mem {l : List Nat} {x : Nat} (h : x ∉ l) :
    (setAdd l x).length = l.length + 1 := by
  simp [setAdd, h]

theorem setDelete_eq_of_not_mem {l : List Nat} {x : Nat} (h : x ∉ l) :
    setDelete l x = l := by
  unfold setDelete
  apply List.filter_eq_self.2
  intro y hy
  simp only [ne_eq, decide_eq_true_eq]
  intro he
  exact h (he ▸ hy)

theorem setDelete_cons_self (x : Nat) (rest : List Nat) :
    setDelete (x :: rest) x = setDelete rest x := by
  simp [setDelete]

theorem setDelete_cons_ne {x y : Nat} (rest : List Nat) (h : y ≠ x) :
    setDelete (y :: rest) x = y :: setDelete rest x := by
  simp [setDelete, h]

theorem setDelete_length_of_mem {l : List Nat} {x : Nat} (hn : l.Nodup)
    (h : x ∈ l) : (setDelete l x).length + 1 = l.length := by
  induction l with
  | nil => simp at h
  | cons y rest ih =>
      simp only [List.nodup_cons] at hn
      rcases List.mem_cons.1 h with h1 | h1
      · subst h1
        rw [setDelete_cons_self, setDelete_eq_of_not_mem hn.1]
        simp
      · have hyx : y ≠ x := by
          intro he
          exact hn.1 (he ▸ h1)
        rw [setDelete_cons_ne rest hyx]
        simp only [List.length_cons]
        rw [ih hn.2 h1]

theorem setAdd_mem {l : List Nat} {x y : Nat} (h : y ∈ setAdd l x) :
    y ∈ l ∨ y = x := by
  by_cases hx : x ∈ l
  · simp [setAdd, hx] at h
    left; exact h
  · simp [setAdd, hx] at h
    rcases h with h | h
    · left; exact h
    · right; exact h

theorem setDelete_mem {l : List Nat} {x y : Nat} (h : y ∈ setDelete l x) :
    y ∈ l ∧ y ≠ x := by
  simp only [setDelete, List.mem_filter, ne_eq, decide_eq_true_eq] at h
  exact h

theorem setAdd_nodup {l : List Nat} (h : l.Nodup) (x : Nat) :
    (setAdd l x).Nodup := by
  by_cases hx : x ∈ l
  · simpa [setAdd, hx] using h
  · simp only [setAdd, hx, if_neg]
    simp [List.nodup_append, h, hx]

theorem setDelete_nodup {l : List Nat} (h : l.Nodup) (x : Nat) :
    (setDelete l x).Nodup := List.Nodup.filter _ h

theorem mapSet_self {α β : Type} [DecidableEq α] {m : List (α × β)} {k : α} {v : β}
    (h : mapGet m k = some v) : mapSet m k v = m := by
  induction m with
  | nil => simp [mapGet] at h
  | cons p rest ih =>
      by_cases hp : p.1 = k
      · simp only [mapGet, if_pos hp, Option.some.injEq] at h
        simp only [mapSet, if_pos hp]
        have : (k, v) = p := by
          cases p
          simp_all
        rw [this]
      · simp only [mapGet, if_neg hp] at h
        simp only [mapSet, if_neg hp, ih h]

theorem mapGet_eq_none_of_not_mem_keys {α β : Type} [DecidableEq α]
    {m : List (α × β)} {k : α} (h : k ∉ m.map Prod.fst) : mapGet m k = none := by
  apply mapGet_eq_none_iff.2
  intro p hp he
  exact h (List.mem_map.2 ⟨p, hp, he⟩)

theorem keys_nodup_eq_of_eq_key {α β : Type} [DecidableEq α] {m : List (α × β)}
    (hn : (m.map Prod.fst).Nodup) {a b : α × β} (ha : a ∈ m) (hb : b ∈ m)
    (hk : a.1 = b.1) : a = b := by
  induction m with
  | nil => simp at ha
  | cons p rest ih =>
      simp only [List.map_cons, List.nodup_cons] at hn
      rcases List.mem_cons.1 ha with ha1 | ha1 <;> rcases List.mem_cons.1 hb with hb1 | hb1
      · rw [ha1, hb1]
      · exfalso
        apply hn.1
        rw [← ha1, hk]
        exact List.mem_map.2 ⟨b, hb1, rfl⟩
      · exfalso
        apply hn.1
        rw [← hb1, ← hk]
        exact List.mem_map.2 ⟨a, ha1, rfl⟩
      · exact ih hn.2 ha1 hb1

theorem mapDelete_sublist {α β : Type} [DecidableEq α] (m : List (α × β)) (k : α) :
    List.Sublist (mapDelete m k) m := by
  induction m with
  | nil => simp [mapDelete]
  | cons p rest ih =>
      by_cases hp : p.1 = k
      · simp only [mapDelete, if_pos hp]
        exact ih.cons p
      · simp only [mapDelete, if_neg hp]
        exact ih.cons₂ p

theorem allCallbackIds_append (l1 l2 : List (String × SessionEntry)) :
    allCallbackIds (l1 ++ l2) = allCallbackIds l1 ++ allCallbackIds l2 := by
  induction l1 with
  | nil => simp [allCallbackIds]
  | cons p rest ih => simp [allCallbackIds, ih]

theorem mem_allCallbackIds_of {l : List (String × SessionEntry)}
    {p : String × SessionEntry} {q : Nat × CallbackWithDebugInfo}
    (hp : p ∈ l) (hq : q ∈ p.2.callbacks) : q.1 ∈ allCallbackIds l := by
  induction l with
  | nil => simp at hp
  | cons r rest ih =>
      rcases List.mem_cons.1 hp with h1 | h1
      · subst h1
        exact List.mem_append.2 (Or.inl (List.mem_map.2 ⟨q, hq, rfl⟩))
      · exact List.mem_append.2 (Or.inr (ih h1))

theorem mem_allCallbackIds_elim {l : List (String × SessionEntry)} {x : Nat}
    (h : x ∈ allCallbackIds l) :
    ∃ p ∈ l, ∃ q ∈ p.2.callbacks, q.1 = x := by
  induction l with
  | nil => simp [allCallbackIds] at h
  | cons r rest ih =>
      rcases List.mem_append.1 h with h1 | h1
      · rcases List.mem_map.1 h1 with ⟨q, hq, hq1⟩
        exact ⟨r, List.mem_cons_self _ _, q, hq, hq1⟩
      · rcases ih h1 with ⟨p, hp, q, hq, hq1⟩
        exact ⟨p, List.mem_cons_of_mem _ hp, q, hq, hq1⟩

theorem session_keys_nodup_of_allIds {l : List (String × SessionEntry)}
    (hn : (allCallbackIds l).Nodup) {p : String × SessionEntry} (hp : p ∈ l) :
    (p.2.callbacks.map Prod.fst).Nodup := by
  induction l with
  | nil => simp at hp
  | cons r rest ih =>
      rw [show allCallbackIds (r :: rest) =
        r.2.callbacks.map Prod.fst ++ allCallbackIds rest from rfl,
        List.nodup_append] at hn
      rcases List.mem_cons.1 hp with h1 | h1
      · subst h1
        exact hn.1
      · exact ih hn.2.1 h1

theorem allCallbackIds_mapSet_sublist {l : List (String × SessionEntry)} {k : String}
    {old v : SessionEntry} (h : mapGet l k = some old)
    (hsub : List.Sublist (v.callbacks.map Prod.fst) (old.callbacks.map Prod.fst)) :
    List.Sublist (allCallbackIds (mapSet l k v)) (allCallbackIds l) := by
  induction l with
  | nil => simp [mapGet] at h
  | cons p rest ih =>
      by_cases hp : p.1 = k
      · simp only [mapGet, if_pos hp, Option.some.injEq] at h
        simp only [mapSet, if_pos hp]
        rw [show allCallbackIds ((k, v) :: rest) =
          v.callbacks.map Prod.fst ++ allCallbackIds rest from rfl,
          show allCallbackIds (p :: rest) =
          p.2.callbacks.map Prod.fst ++ allCallbackIds rest from rfl, h]
        exact List.Sublist.append hsub (List.Sublist.refl _)
      · simp only [mapGet, if_neg hp] at h
        simp only [mapSet, if_neg hp]
        rw [show allCallbackIds (p :: mapSet rest k v) =
          p.2.callbacks.map Prod.fst ++ allCallbackIds (mapSet rest k v) from rfl,
          show allCallbackIds (p :: rest) =
          p.2.callbacks.map Prod.fst ++ allCallbackIds rest from rfl]
        exact List.Sublist.append (List.Sublist.refl _) (ih h)

theorem allCallbackIds_mapDelete_sublist (l : List (String × SessionEntry)) (k : String) :
    List.Sublist (allCallbackIds (mapDelete l k)) (allCallbackIds l) := by
  induction l with
  | nil => simp [mapDelete, allCallbackIds]
  | cons p rest ih =>
      by_cases hp : p.1 = k
      · simp only [mapDelete, if_pos hp]
        refine ih.trans ?_
        rw [show allCallbackIds (p :: rest) =
          p.2.callbacks.map Prod.fst ++ allCallbackIds rest from rfl]
        exact List.sublist_append_right _ _
      · simp only [mapDelete, if_neg hp]
        rw [show allCallbackIds (p :: mapDelete rest k) =
          p.2.callbacks.map Prod.fst ++ allCallbackIds (mapDelete rest k) from rfl,
          show allCallbackIds (p :: rest) =
          p.2.callbacks.map Prod.fst ++ allCallbackIds rest from rfl]
        exact List.Sublist.append (List.Sublist.refl _) ih

theorem mem_allCallbackIds_mapSet {l : List (String × SessionEntry)} {k : String}
    {v : SessionEntry} {x : Nat} (h : x ∈ allCallbackIds (mapSet l k v)) :
    x ∈ allCallbackIds l ∨ x ∈ v.callbacks.map Prod.fst := by
  induction l with
  | nil =>
      simp only [mapSet] at h
      rw [show allCallbackIds [(k, v)] = v.callbacks.map Prod.fst ++ [] from by
        simp [allCallbackIds]] at h
      right
      simpa using h
  | cons p rest ih =>
      by_cases hp : p.1 = k
      · simp only [mapSet, if_pos hp] at h
        rcases List.mem_append.1 h with h1 | h1
        · right; exact h1
        · left
          exact List.mem_append.2 (Or.inr h1)
      · simp only [mapSet, if_neg hp] at h
        rcases List.mem_append.1 h with h1 | h1
        · left
          exact List.mem_append.2 (Or.inl h1)
        · rcases ih h1 with h2 | h2
          · left
            exact List.mem_append.2 (Or.inr h2)
          · right; exact h2

theorem allCallbackIds_nodup_mapSet_append {l : List (String × SessionEntry)}
    {k : String} {old v : SessionEntry} {newId : Nat} {c : CallbackWithDebugInfo}
    (hn : (allCallbackIds l).Nodup) (h : mapGet l k = some old)
    (hv : v.callbacks = old.callbacks ++ [(newId, c)])
    (hfresh : newId ∉ allCallbackIds l) :
    (allCallbackIds (mapSet l k v)).Nodup := by
  induction l with
  | nil => simp [mapGet] at h
  | cons p rest ih =>
      rw [show allCallbackIds (p :: rest) =
        p.2.callbacks.map Prod.fst ++ allCallbackIds rest from rfl] at hn hfresh
      by_cases hp : p.1 = k
      · simp only [mapGet, if_pos hp, Option.some.injEq] at h
        simp only [mapSet, if_pos hp]
        rw [show allCallbackIds ((k, v) :: rest) =
          v.callbacks.map Prod.fst ++ allCallbackIds rest from rfl, hv, ← h]
        rw [List.map_append, List.append_assoc]
        simp only [List.map_cons, List.map_nil, List.singleton_append]
        rw [List.nodup_middle, List.nodup_cons]
        constructor
        · simpa using hfresh
        · exact hn
      · simp only [mapGet, if_neg hp] at h
        simp only [mapSet, if_neg hp]
        rw [List.nodup_append] at hn
        rw [show allCallbackIds (p :: mapSet rest k v) =
          p.2.callbacks.map Prod.fst ++ allCallbackIds (mapSet rest k v) from rfl,
          List.nodup_append]
        have hfr : newId ∉ allCallbackIds rest := fun hh =>
          hfresh (List.mem_append.2 (Or.inr hh))
        refine ⟨hn.1, ih hn.2.1 h hfr, ?_⟩
        intro x hx hx2
        rcases mem_allCallbackIds_mapSet hx2 with h1 | h1
        · exact hn.2.2 hx h1
        · rw [hv, List.map_append] at h1
          rcases List.mem_append.1 h1 with h2 | h2
          · rcases List.mem_map.1 h2 with ⟨q, hq, hq1⟩
            have : x ∈ allCallbackIds rest := by
              rw [← hq1]
              exact mem_allCallbackIds_of (mapGet_eq_some_mem h) hq
            exact hn.2.2 hx this
          · simp only [List.map_cons, List.map_nil, List.mem_singleton] at h2
            subst h2
            exact hfresh (List.mem_append.2 (Or.inl hx))

theorem allIds_unique {l : List (String × SessionEntry)} {k : String}
    {sess : SessionEntry} {id : Nat} {c : CallbackWithDebugInfo}
    (hn : (allCallbackIds l).Nodup) (hkeys : (l.map Prod.fst).Nodup)
    (h1 : mapGet l k = some sess) (h2 : (id, c) ∈ sess.callbacks) :
    ∀ p ∈ l, ∀ q ∈ p.2.callbacks, q.1 = id → p.1 = k ∧ q = (id, c) := by
  induction l with
  | nil => simp [mapGet] at h1
  | cons r rest ih =>
      intro p hp q hq hqid
      rw [show allCallbackIds (r :: rest) =
        r.2.callbacks.map Prod.fst ++ allCallbackIds rest from rfl,
        List.nodup_append] at hn
      simp only [List.map_cons, List.nodup_cons] at hkeys
      by_cases hr : r.1 = k
      · simp only [mapGet, if_pos hr, Option.some.injEq] at h1
        rcases List.mem_cons.1 hp with hp1 | hp1
        · subst hp1
          refine ⟨hr, ?_⟩
          apply keys_nodup_eq_of_eq_key (session_keys_nodup_of_allIds
            (by rw [show allCallbackIds (p :: rest) =
              p.2.callbacks.map Prod.fst ++ allCallbackIds rest from rfl,
              List.nodup_append]; exact hn) (List.mem_cons_self p rest)) hq
            (by rw [h1]; exact h2) hqid
        · exfalso
          have hid1 : id ∈ r.2.callbacks.map Prod.fst := by
            rw [h1]
            exact List.mem_map.2 ⟨(id, c), h2, rfl⟩
          have hid2 : id ∈ allCallbackIds rest := by
            rw [← hqid]
            exact mem_allCallbackIds_of hp1 hq
          exact hn.2.2 hid1 hid2
      · simp only [mapGet, if_neg hr] at h1
        rcases List.mem_cons.1 hp with hp1 | hp1
        · exfalso
          subst hp1
          have hid1 : id ∈ p.2.callbacks.map Prod.fst := by
            rw [← hqid]
            exact List.mem_map.2 ⟨q, hq, rfl⟩
          have hid2 : id ∈ allCallbackIds rest :=
            mem_allCallbackIds_of (mapGet_eq_some_mem h1) h2
          exact hn.2.2 hid1 hid2
        · exact ih hn.2.1 hkeys.2 h1 p hp1 q hq hqid

theorem cbNonLP_append (a b : List (Nat × CallbackWithDebugInfo)) :
    cbNonLP (a ++ b) = cbNonLP a + cbNonLP b := by
  simp [cbNonLP, List.countP_append]

theorem cbNonLP_pos_of_mem {cbs : List (Nat × CallbackWithDebugInfo)}
    {q : Nat × CallbackWithDebugInfo} (hq : q ∈ cbs)
    (h : isLongPolling q.2.method = false) : 1 ≤ cbNonLP cbs := by
  have : 0 < cbs.countP (fun r => !(isLongPolling r.2.method)) :=
    List.countP_pos_iff.2 ⟨q, hq, by simp [h]⟩
  simpa [cbNonLP] using this

theorem cbNonLP_mapDelete {cbs : List (Nat × CallbackWithDebugInfo)} {id : Nat}
    {c : CallbackWithDebugInfo} (hn : (cbs.map Prod.fst).Nodup)
    (h : mapGet cbs id = some c) :
    cbNonLP (mapDelete cbs id) + (if isLongPolling c.method then 0 else 1) =
      cbNonLP cbs := by
  induction cbs with
  | nil => simp [mapGet] at h
  | cons q rest ih =>
      simp only [List.map_cons, List.nodup_cons] at hn
      by_cases hq : q.1 = id
      · simp only [mapGet, if_pos hq, Option.some.injEq] at h
        have hrest : mapGet rest id = none := by
          apply mapGet_eq_none_of_not_mem_keys
          rw [← hq]
          exact hn.1
        simp only [mapDelete, if_pos hq, mapDelete_eq_of_get_none hrest]
        rw [show cbNonLP (q :: rest) =
          (if !(isLongPolling q.2.method) then 1 else 0) + cbNonLP rest from by
            simp [cbNonLP, List.countP_cons]
            omega]
        rw [← h]
        cases hlp : isLongPolling q.2.method <;> simp [hlp] <;> omega
      · simp only [mapGet, if_neg hq] at h
        simp only [mapDelete, if_neg hq]
        rw [show cbNonLP (q :: mapDelete rest id) =
          (if !(isLongPolling q.2.method) then 1 else 0) + cbNonLP (mapDelete rest id) from by
            simp [cbNonLP, List.countP_cons]
            omega]
        rw [show cbNonLP (q :: rest) =
          (if !(isLongPolling q.2.method) then 1 else 0) + cbNonLP rest from by
            simp [cbNonLP, List.countP_cons]
            omega]
        rw [← ih hn.2 h]
        omega

/-- Sum of non-long-polling pending calls over a session table. -/
def sessionsNonLPSum (l : List (String × SessionEntry)) : Nat :=
  (l.map (fun p => cbNonLP p.2.callbacks)).sum

theorem nlpTotal_eq (s : SessionRouterState) :
    nlpTotal s = sessionsNonLPSum s.sessions := rfl

theorem sessionsNonLPSum_mapSet {l : List (String × SessionEntry)} {k : String}
    {old : SessionEntry} (v : SessionEntry) (h : mapGet l k = some old) :
    sessionsNonLPSum (mapSet l k v) + cbNonLP old.callbacks =
      sessionsNonLPSum l + cbNonLP v.callbacks := by
  induction l with
  | nil => simp [mapGet] at h
  | cons p rest ih =>
      by_cases hp : p.1 = k
      · simp only [mapGet, if_pos hp, Option.some.injEq] at h
        simp only [mapSet, if_pos hp, sessionsNonLPSum, List.map_cons, List.sum_cons, ← h]
        omega
      · simp only [mapGet, if_neg hp] at h
        simp only [mapSet, if_neg hp, sessionsNonLPSum, List.map_cons, List.sum_cons]
        have := ih h
        simp only [sessionsNonLPSum] at this
        omega

theorem sessionsNonLPSum_mapSet_none {l : List (String × SessionEntry)} {k : String}
    (v : SessionEntry) (h : mapGet l k = none) :
    sessionsNonLPSum (mapSet l k v) = sessionsNonLPSum l + cbNonLP v.callbacks := by
  rw [mapSet_append_of_get_none h]
  simp [sessionsNonLPSum]

theorem sessionsNonLPSum_mapDelete_le (l : List (String × SessionEntry)) (k : String) :
    sessionsNonLPSum (mapDelete l k) ≤ sessionsNonLPSum l := by
  induction l with
  | nil => simp [mapDelete]
  | cons p rest ih =>
      by_cases hp : p.1 = k
      · simp only [mapDelete, if_pos hp, sessionsNonLPSum, List.map_cons, List.sum_cons]
        simp only [sessionsNonLPSum] at ih
        omega
      · simp only [mapDelete, if_neg hp, sessionsNonLPSum, List.map_cons, List.sum_cons]
        simp only [sessionsNonLPSum] at ih
        omega

theorem sessionsNonLPSum_mapDelete {l : List (String × SessionEntry)} {k : String}
    {sess : SessionEntry} (hkeys : (l.map Prod.fst).Nodup)
    (h : mapGet l k = some sess) :
    sessionsNonLPSum (mapDelete l k) + cbNonLP sess.callbacks = sessionsNonLPSum l := by
  induction l with
  | nil => simp [mapGet] at h
  | cons p rest ih =>
      simp only [List.map_cons, List.nodup_cons] at hkeys
      by_cases hp : p.1 = k
      · simp only [mapGet, if_pos hp, Option.some.injEq] at h
        have hrest : mapGet rest k = none := by
          apply mapGet_eq_none_of_not_mem_keys
          rw [← hp]
          exact hkeys.1
        simp only [mapDelete, if_pos hp, mapDelete_eq_of_get_none hrest,
          sessionsNonLPSum, List.map_cons, List.sum_cons, ← h]
        omega
      · simp only [mapGet, if_neg hp] at h
        simp only [mapDelete, if_neg hp, sessionsNonLPSum, List.map_cons, List.sum_cons]
        have := ih hkeys.2 h
        simp only [sessionsNonLPSum] at this
        omega

theorem mem_setAdd_of_mem {l : List Nat} {x y : Nat} (h : y ∈ l) : y ∈ setAdd l x := by
  by_cases hx : x ∈ l <;> simp [setAdd, hx, h]

theorem mem_setAdd_self (l : List Nat) (x : Nat) : x ∈ setAdd l x := by
  by_cases hx : x ∈ l <;> simp [setAdd, hx]

theorem setAdd_length_le (l : List Nat) (x : Nat) :
    (setAdd l x).length ≤ l.length + 1 := by
  by_cases hx : x ∈ l <;> simp [setAdd, hx]

theorem setDelete_length_le (l : List Nat) (x : Nat) :
    (setDelete l x).length ≤ l.length :=
  List.length_filter_le _ _

theorem mem_setDelete_intro {l : List Nat} {x y : Nat} (h : y ∈ l) (hne : y ≠ x) :
    y ∈ setDelete l x := by
  simp [setDelete, List.mem_filter, h, hne]

theorem forall_mem_mapSet {α β : Type} [DecidableEq α] {l : List (α × β)} {k : α}
    {v : β} {P : α × β → Prop} (hl : ∀ p ∈ l, P p) (hv : P (k, v)) :
    ∀ p ∈ mapSet l k v, P p := by
  intro p hp
  rcases mem_mapSet hp with h | h
  · rw [h]; exact hv
  · exact hl p h

theorem forall_mem_mapDelete {α β : Type} [DecidableEq α] {l : List (α × β)} {k : α}
    {P : α × β → Prop} (hl : ∀ p ∈ l, P p) : ∀ p ∈ mapDelete l k, P p := by
  intro p hp
  exact hl p (mem_mapDelete hp).1

/-- `deprecatedRunAfterPendingDispatches` without a script leaves the state
unchanged and only schedules a check. -/
theorem deprecatedRunAfterPendingDispatches_none (s : SessionRouterState) :
    deprecatedRunAfterPendingDispatches s none = (s, [Effect.scheduleDrainCheck]) := rfl

/-- State analysis of `_onMessage`: either the state is untouched, or the
message matched a pending callback and the state drops that callback,
decrements the pending count and clears the id from long-polling tracking. -/
theorem onMessage_state_cases (s : SessionRouterState) (msg : Message) :
    (onMessage s msg).1 = s ∨
    ∃ sess msgId c,
      mapGet s.sessions (msg.sessionId.getD "") = some sess ∧
      sess.proxyConnection = none ∧ msg.id = some msgId ∧
      mapGet sess.callbacks msgId = some c ∧
      (onMessage s msg).1 =
        { s with
          sessions := mapSet s.sessions (msg.sessionId.getD "")
            ({ sess with callbacks := mapDelete sess.callbacks msgId }),
          pendingResponsesCount := s.pendingResponsesCount - 1,
          pendingLongPollingMessageIds :=
            setDelete s.pendingLongPollingMessageIds msgId } := by
  cases hg : mapGet s.sessions (msg.sessionId.getD "") with
  | none =>
      left
      simp [onMessage, hg]
  | some sess =>
      cases hpc : sess.proxyConnection with
      | some pr =>
          left
          simp [onMessage, hg, hpc]
      | none =>
          cases hid : msg.id with
          | none =>
              left
              cases hm : msg.method <;> simp [onMessage, hg, hpc, hid, hm]
          | some msgId =>
              cases hc : mapGet sess.callbacks msgId with
              | none =>
                  left
                  have h2 : mapSet s.sessions (msg.sessionId.getD "")
                      ({ sess with callbacks := mapDelete sess.callbacks msgId }) =
                      s.sessions := by
                    rw [mapDelete_eq_of_get_none hc]
                    exact mapSet_self hg
                  rw [hpc] at h2
                  simp [onMessage, hg, hpc, hid, hc, h2]
              | some c =>
                  right
                  refine ⟨sess, msgId, c, rfl, hpc, rfl, hc, ?_⟩
                  simp [onMessage, hg, hpc, hid, hc]
                  split <;> rfl

theorem registerSession_state (s : SessionRouterState) (t : Nat) (sid : String)
    (proxy : Option ProxyConn) :
    (registerSession s t sid proxy).1 =
      { s with sessions := mapSet s.sessions sid ⟨t, [], proxy⟩ } := rfl

theorem unregisterSession_none {s : SessionRouterState} {sid : String}
    (hg : mapGet s.sessions sid = none) : unregisterSession s sid = (s, []) := by
  simp [unregisterSession, hg]

theorem unregisterSession_some {s : SessionRouterState} {sid : String}
    {sess : SessionEntry} (hg : mapGet s.sessions sid = some sess) :
    unregisterSession s sid =
      ({ s with sessions := mapDelete s.sessions sid },
        sess.callbacks.map (fun q => dispatchUnregisterSessionError q.2)) := by
  simp [unregisterSession, hg]

theorem sendMessage_none {s : SessionRouterState} {sid : String}
    (d m : String) (p : Option JSObj) (cb : Nat)
    (hg : mapGet s.sessions sid = none) :
    sendMessage s sid d m p cb =
      ({ s with
          lastMessageId := s.lastMessageId + 1,
          pendingResponsesCount := s.pendingResponsesCount + 1,
          pendingLongPollingMessageIds :=
            if isLongPolling m then setAdd s.pendingLongPollingMessageIds s.lastMessageId
            else s.pendingLongPollingMessageIds }, []) := by
  simp [sendMessage, hg]

theorem sendMessage_some {s : SessionRouterState} {sid : String}
    (d m : String) (p : Option JSObj) (cb : Nat) {sess : SessionEntry}
    (hg : mapGet s.sessions sid = some sess) :
    sendMessage s sid d m p cb =
      ({ s with
          lastMessageId := s.lastMessageId + 1,
          pendingResponsesCount := s.pendingResponsesCount + 1,
          pendingLongPollingMessageIds :=
            if isLongPolling m then setAdd s.pendingLongPollingMessageIds s.lastMessageId
            else s.pendingLongPollingMessageIds,
          sessions := mapSet s.sessions sid ({ sess with callbacks := mapSet sess.callbacks s.lastMessageId ⟨cb, m⟩ }) },
        [Effect.sendRaw ⟨some s.lastMessageId, if sid = "" then none else some sid, some m, p, none, none⟩]) := by
  simp [sendMessage, hg]

theorem runAfter_core (s : SessionRouterState) (sc : Option Nat) :
    (deprecatedRunAfterPendingDispatches s sc).1 =
      { s with pendingScripts := (deprecatedRunAfterPendingDispatches s sc).1.pendingScripts } := by
  cases sc <;> rfl

theorem executeAfter_core (s : SessionRouterState) :
    (executeAfterPendingDispatches s).1 =
      { s with pendingScripts := (executeAfterPendingDispatches s).1.pendingScripts } := by
  unfold executeAfterPendingDispatches
  split <;> rfl

theorem drainCheckTask_core (s : SessionRouterState) :
    (drainCheckTask s).1 =
      { s with pendingScripts := (drainCheckTask s).1.pendingScripts } := by
  unfold drainCheckTask executeAfterPendingDispatches
  split
  · rfl
  · rfl

/-- Every turn of the router preserves the drain-accounting slack: once the
pending count is `k` ahead of everything an incoming response can still pay
down, it stays `k` ahead. -/
theorem drainGap_step {k : Nat} {s : SessionRouterState} (hinv : RouterInv s)
    (hgap : drainGap k s) (op : Op) : drainGap k (stepState s op) := by
  obtain ⟨hlpF, hcbF, hlpS, hkeysN, hallN, hlpN, _⟩ := hinv
  cases op with
  | register t sid proxy =>
      show drainGap k (registerSession s t sid proxy).1
      rw [registerSession_state]
      unfold drainGap at hgap ⊢
      simp only [nlpTotal_eq] at hgap ⊢
      cases hg : mapGet s.sessions sid with
      | none =>
          rw [sessionsNonLPSum_mapSet_none ⟨t, [], proxy⟩ hg]
          simp only [cbNonLP, List.countP_nil]
          omega
      | some old =>
          have h := sessionsNonLPSum_mapSet ⟨t, [], proxy⟩ hg
          simp only [cbNonLP, List.countP_nil] at h
          omega
  | unregister sid =>
      show drainGap k (unregisterSession s sid).1
      cases hg : mapGet s.sessions sid with
      | none => rw [unregisterSession_none hg]; exact hgap
      | some sess =>
          rw [unregisterSession_some hg]
          unfold drainGap at hgap ⊢
          simp only [nlpTotal_eq] at hgap ⊢
          have h := sessionsNonLPSum_mapDelete_le s.sessions sid
          omega
  | send sid d m p cb =>
      show drainGap k (sendMessage s sid d m p cb).1
      cases hg : mapGet s.sessions sid with
      | none =>
          rw [sendMessage_none d m p cb hg]
          unfold drainGap at hgap ⊢
          simp only [nlpTotal_eq] at hgap ⊢
          have hlen := setAdd_length_le s.pendingLongPollingMessageIds s.lastMessageId
          split <;> omega
      | some sess =>
          have hfresh : mapGet sess.callbacks s.lastMessageId = none := by
            apply mapGet_eq_none_of_not_mem_keys
            intro hmem
            rcases List.mem_map.1 hmem with ⟨q, hq, hq1⟩
            have := hcbF _ (mapGet_eq_some_mem hg) q hq
            omega
          have happ : mapSet sess.callbacks s.lastMessageId ⟨cb, m⟩ =
              sess.callbacks ++ [(s.lastMessageId, ⟨cb, m⟩)] :=
            mapSet_append_of_get_none hfresh _
          rw [sendMessage_some d m p cb hg]
          unfold drainGap at hgap ⊢
          simp only [nlpTotal_eq] at hgap ⊢
          rw [happ]
          have hsum := sessionsNonLPSum_mapSet ({ sess with callbacks := sess.callbacks ++ [(s.lastMessageId, ⟨cb, m⟩)] }) hg
          rw [show ({ sess with callbacks := sess.callbacks ++ [(s.lastMessageId, ⟨cb, m⟩)] } : SessionEntry).callbacks = sess.callbacks ++ [(s.lastMessageId, ⟨cb, m⟩)] from rfl, cbNonLP_append] at hsum
          split
          next hm =>
            have hzero : cbNonLP [(s.lastMessageId, (⟨cb, m⟩ : CallbackWithDebugInfo))] = 0 := by
              simp [cbNonLP, List.countP_cons, hm]
            have hnotmem : s.lastMessageId ∉ s.pendingLongPollingMessageIds := by
              intro hmem
              have := hlpF _ hmem
              omega
            have hlen := setAdd_length_of_not_mem hnotmem
            omega
          next hm =>
            have hm' : isLongPolling m = false := by
              revert hm
              cases isLongPolling m <;> simp
            have hone : cbNonLP [(s.lastMessageId, (⟨cb, m⟩ : CallbackWithDebugInfo))] = 1 := by
              simp [cbNonLP, List.countP_cons, hm']
            omega
  | recv msg =>
      show drainGap k (onMessage s msg).1
      rcases onMessage_state_cases s msg with h | ⟨sess, msgId, c, hg, hpc, hid, hc, h⟩
      · rw [h]; exact hgap
      · rw [h]
        unfold drainGap at hgap ⊢
        simp only [nlpTotal_eq] at hgap ⊢
        have hsessmem := mapGet_eq_some_mem hg
        have hkn : (sess.callbacks.map Prod.fst).Nodup :=
          session_keys_nodup_of_allIds hallN hsessmem
        have hdel := cbNonLP_mapDelete hkn hc
        have hsum := sessionsNonLPSum_mapSet ({ sess with callbacks := mapDelete sess.callbacks msgId }) hg
        rw [show ({ sess with callbacks := mapDelete sess.callbacks msgId } : SessionEntry).callbacks = mapDelete sess.callbacks msgId from rfl] at hsum
        cases hlp : isLongPolling c.method with
        | true =>
            have hmemlp : msgId ∈ s.pendingLongPollingMessageIds :=
              hlpS _ hsessmem _ (mapGet_eq_some_mem hc) hlp
            have hlen := setDelete_length_of_mem hlpN hmemlp
            rw [hlp] at hdel
            simp only [if_pos rfl] at hdel
            omega
        | false =>
            have hlen := setDelete_length_le s.pendingLongPollingMessageIds msgId
            rw [hlp] at hdel
            simp only [Bool.false_eq_true, if_neg, if_false] at hdel
            omega
  | runAfter sc =>
      show drainGap k (deprecatedRunAfterPendingDispatches s sc).1
      rw [runAfter_core]
      exact hgap
  | drainTick =>
      show drainGap k (drainCheckTask s).1
      rw [drainCheckTask_core]
      exact hgap
  | execPending =>
      show drainGap k (executeAfterPendingDispatches s).1
      rw [executeAfter_core]
      exact hgap

theorem mem_mapSet_nodup {α β : Type} [DecidableEq α] {l : List (α × β)} {k : α}
    {v : β} {p : α × β} (hn : (l.map Prod.fst).Nodup) (hp : p ∈ mapSet l k v) :
    p = (k, v) ∨ (p ∈ l ∧ p.1 ≠ k) := by
  induction l with
  | nil =>
      simp [mapSet] at hp
      left
      simp [hp]
  | cons r rest ih =>
      simp only [List.map_cons, List.nodup_cons] at hn
      by_cases hr : r.1 = k
      · simp only [mapSet, if_pos hr] at hp
        rcases List.mem_cons.1 hp with h1 | h1
        · left; exact h1
        · right
          refine ⟨List.mem_cons_of_mem _ h1, ?_⟩
          intro he
          apply hn.1
          rw [hr, ← he]
          exact List.mem_map.2 ⟨p, h1, rfl⟩
      · simp only [mapSet, if_neg hr] at hp
        rcases List.mem_cons.1 hp with h1 | h1
        · right
          exact ⟨by rw [h1]; exact List.mem_cons_self _ _, by rw [h1]; exact hr⟩
        · rcases ih hn.2 h1 with h2 | h2
          · left; exact h2
          · right
            exact ⟨List.mem_cons_of_mem _ h2.1, h2.2⟩

/-- Every turn of the router preserves the reachability invariant. -/
theorem routerInv_step {s : SessionRouterState} (hinv : RouterInv s) (op : Op) :
    RouterInv (stepState s op) := by
  have hgap : drainGap 0 (stepState s op) :=
    drainGap_step hinv hinv.2.2.2.2.2.2 op
  obtain ⟨hlpF, hcbF, hlpS, hkeysN, hallN, hlpN, hcnt⟩ := hinv
  cases op with
  | register t sid proxy =>
      have hstep : stepState s (Op.register t sid proxy) =
          { s with sessions := mapSet s.sessions sid ⟨t, [], proxy⟩ } :=
        registerSession_state s t sid proxy
      rw [hstep] at hgap ⊢
      refine ⟨hlpF, ?_, ?_, ?_, ?_, hlpN, hgap⟩
      · exact forall_mem_mapSet hcbF (by intro q hq; simp at hq)
      · exact forall_mem_mapSet hlpS (by intro q hq; simp at hq)
      · exact mapSet_keys_nodup hkeysN _ _
      · show (allCallbackIds (mapSet s.sessions sid ⟨t, [], proxy⟩)).Nodup
        cases hg : mapGet s.sessions sid with
        | none =>
            rw [mapSet_append_of_get_none hg, allCallbackIds_append]
            simpa [allCallbackIds] using hallN
        | some old =>
            exact List.Nodup.sublist
              (allCallbackIds_mapSet_sublist hg (List.nil_sublist _)) hallN
  | unregister sid =>
      cases hg : mapGet s.sessions sid with
      | none =>
          have hstep : stepState s (Op.unregister sid) = s := by
            show (unregisterSession s sid).1 = s
            rw [unregisterSession_none hg]
          rw [hstep]
          exact ⟨hlpF, hcbF, hlpS, hkeysN, hallN, hlpN, hcnt⟩
      | some sess =>
          have hstep : stepState s (Op.unregister sid) =
              { s with sessions := mapDelete s.sessions sid } := by
            show (unregisterSession s sid).1 = _
            rw [unregisterSession_some hg]
          rw [hstep] at hgap ⊢
          refine ⟨hlpF, ?_, ?_, ?_, ?_, hlpN, hgap⟩
          · exact forall_mem_mapDelete hcbF
          · exact forall_mem_mapDelete hlpS
          · exact mapDelete_keys_nodup hkeysN _
          · exact List.Nodup.sublist (allCallbackIds_mapDelete_sublist _ _) hallN
  | send sid d m p cb =>
      cases hg : mapGet s.sessions sid with
      | none =>
          have hstep : stepState s (Op.send sid d m p cb) =
              { s with
                lastMessageId := s.lastMessageId + 1,
                pendingResponsesCount := s.pendingResponsesCount + 1,
                pendingLongPollingMessageIds :=
                  if isLongPolling m then setAdd s.pendingLongPollingMessageIds s.lastMessageId
                  else s.pendingLongPollingMessageIds } := by
            show (sendMessage s sid d m p cb).1 = _
            rw [sendMessage_none d m p cb hg]
          rw [hstep] at hgap ⊢
          refine ⟨?_, ?_, ?_, hkeysN, hallN, ?_, hgap⟩
          · intro id hid
            simp only at hid ⊢
            split at hid
            · rcases setAdd_mem hid with h1 | h1
              · have := hlpF _ h1; omega
              · omega
            · have := hlpF _ hid; omega
          · intro q hq r hr
            have := hcbF q hq r hr
            simp only
            omega
          · intro q hq r hr hlp
            have := hlpS q hq r hr hlp
            simp only
            split
            · exact mem_setAdd_of_mem this
            · exact this
          · simp only
            split
            · exact setAdd_nodup hlpN _
            · exact hlpN
      | some sess =>
          have hfreshcb : mapGet sess.callbacks s.lastMessageId = none := by
            apply mapGet_eq_none_of_not_mem_keys
            intro hmem
            rcases List.mem_map.1 hmem with ⟨q, hq, hq1⟩
            have := hcbF _ (mapGet_eq_some_mem hg) q hq
            omega
          have happ : mapSet sess.callbacks s.lastMessageId ⟨cb, m⟩ =
              sess.callbacks ++ [(s.lastMessageId, ⟨cb, m⟩)] :=
            mapSet_append_of_get_none hfreshcb _
          have hstep : stepState s (Op.send sid d m p cb) =
              { s with
                lastMessageId := s.lastMessageId + 1,
                pendingResponsesCount := s.pendingResponsesCount + 1,
                pendingLongPollingMessageIds :=
                  if isLongPolling m then setAdd s.pendingLongPollingMessageIds s.lastMessageId
                  else s.pendingLongPollingMessageIds,
                sessions := mapSet s.sessions sid ({ sess with callbacks := sess.callbacks ++ [(s.lastMessageId, ⟨cb, m⟩)] }) } := by
            show (sendMessage s sid d m p cb).1 = _
            rw [sendMessage_some d m p cb hg, happ]
          rw [hstep] at hgap ⊢
          refine ⟨?_, ?_, ?_, ?_, ?_, ?_, hgap⟩
          · intro id hid
            simp only at hid ⊢
            split at hid
            · rcases setAdd_mem hid with h1 | h1
              · have := hlpF _ h1; omega
              · omega
            · have := hlpF _ hid; omega
          · refine forall_mem_mapSet ?_ ?_
            · intro q hq r hr
              have := hcbF q hq r hr
              simp only
              omega
            · intro q hq
              rw [show ({ sess with callbacks := sess.callbacks ++ [(s.lastMessageId, ⟨cb, m⟩)] } : SessionEntry).callbacks = sess.callbacks ++ [(s.lastMessageId, ⟨cb, m⟩)] from rfl] at hq
              simp only
              rcases List.mem_append.1 hq with h1 | h1
              · have := hcbF _ (mapGet_eq_some_mem hg) q h1
                omega
              · simp only [List.mem_singleton] at h1
                subst h1
                exact Nat.lt_succ_self _
          · refine forall_mem_mapSet ?_ ?_
            · intro q hq r hr hlp
              have := hlpS q hq r hr hlp
              simp only
              split
              · exact mem_setAdd_of_mem this
              · exact this
            · intro q hq
              rw [show ({ sess with callbacks := sess.callbacks ++ [(s.lastMessageId, ⟨cb, m⟩)] } : SessionEntry).callbacks = sess.callbacks ++ [(s.lastMessageId, ⟨cb, m⟩)] from rfl] at hq
              intro hlp
              simp only
              rcases List.mem_append.1 hq with h1 | h1
              · have := hlpS _ (mapGet_eq_some_mem hg) q h1 hlp
                split
                · exact mem_setAdd_of_mem this
                · exact this
              · simp only [List.mem_singleton] at h1
                subst h1
                simp only at hlp
                rw [hlp]
                simp only [if_pos rfl]
                exact mem_setAdd_self _ _
          · exact mapSet_keys_nodup hkeysN _ _
          · show (allCallbackIds (mapSet s.sessions sid ({ sess with callbacks := sess.callbacks ++ [(s.lastMessageId, ⟨cb, m⟩)] }))).Nodup
            have hfreshAll : s.lastMessageId ∉ allCallbackIds s.sessions := by
              intro hmem
              rcases mem_allCallbackIds_elim hmem with ⟨q, hq, r, hr, hr1⟩
              have := hcbF q hq r hr
              omega
            exact allCallbackIds_nodup_mapSet_append hallN hg rfl hfreshAll
          · simp only
            split
            · exact setAdd_nodup hlpN _
            · exact hlpN
  | recv msg =>
      rcases onMessage_state_cases s msg with h | ⟨sess, msgId, c, hg, hpc, hid, hc, h⟩
      · have hstep : stepState s (Op.recv msg) = s := h
        rw [hstep]
        exact ⟨hlpF, hcbF, hlpS, hkeysN, hallN, hlpN, hcnt⟩
      · have hstep : stepState s (Op.recv msg) =
            { s with
              sessions := mapSet s.sessions (msg.sessionId.getD "") ({ sess with callbacks := mapDelete sess.callbacks msgId }),
              pendingResponsesCount := s.pendingResponsesCount - 1,
              pendingLongPollingMessageIds := setDelete s.pendingLongPollingMessageIds msgId } := h
        rw [hstep] at hgap ⊢
        have hsessmem := mapGet_eq_some_mem hg
        have hcmem := mapGet_eq_some_mem hc
        refine ⟨?_, ?_, ?_, ?_, ?_, ?_, hgap⟩
        · intro id hid2
          exact hlpF _ (setDelete_mem hid2).1
        · refine forall_mem_mapSet ?_ ?_
          · intro q hq r hr
            exact hcbF q hq r hr
          · intro q hq
            rw [show ({ sess with callbacks := mapDelete sess.callbacks msgId } : SessionEntry).callbacks = mapDelete sess.callbacks msgId from rfl] at hq
            exact hcbF _ hsessmem q (mem_mapDelete hq).1
        · intro p hp q hq hqlp
          rcases mem_mapSet_nodup hkeysN hp with h1 | h1
          · subst h1
            rw [show ({ sess with callbacks := mapDelete sess.callbacks msgId } : SessionEntry).callbacks = mapDelete sess.callbacks msgId from rfl] at hq
            rcases mem_mapDelete hq with ⟨hq1, hq2⟩
            exact mem_setDelete_intro (hlpS _ hsessmem q hq1 hqlp) hq2
          · have hqlpmem := hlpS _ h1.1 q hq hqlp
            refine mem_setDelete_intro hqlpmem ?_
            intro he
            have := allIds_unique hallN hkeysN hg hcmem _ h1.1 q hq he
            exact h1.2 this.1
        · exact mapSet_keys_nodup hkeysN _ _
        · refine List.Nodup.sublist (allCallbackIds_mapSet_sublist hg ?_) hallN
          exact List.Sublist.map _ (mapDelete_sublist _ _)
        · exact setDelete_nodup hlpN _
  | runAfter sc =>
      show RouterInv (deprecatedRunAfterPendingDispatches s sc).1
      rw [runAfter_core]
      exact ⟨hlpF, hcbF, hlpS, hkeysN, hallN, hlpN, hcnt⟩
  | drainTick =>
      show RouterInv (drainCheckTask s).1
      rw [drainCheckTask_core]
      exact ⟨hlpF, hcbF, hlpS, hkeysN, hallN, hlpN, hcnt⟩
  | execPending =>
      show RouterInv (executeAfterPendingDispatches s).1
      rw [executeAfter_core]
      exact ⟨hlpF, hcbF, hlpS, hkeysN, hallN, hlpN, hcnt⟩

theorem steps_inv_gap (k : Nat) : ∀ (ops : List Op) (s : SessionRouterState),
    RouterInv s → drainGap k s →
    RouterInv (steps s ops) ∧ drainGap k (steps s ops) := by
  intro ops
  induction ops with
  | nil => intro s hi hg; exact ⟨hi, hg⟩
  | cons op rest ih =>
      intro s hi hg
      exact ih (stepState s op) (routerInv_step hi op) (drainGap_step hi hg op)

theorem hasOutstanding_of_gap_one {s : SessionRouterState} (h : drainGap 1 s) :
    hasOutstandingNonLongPollingRequests s = true := by
  unfold drainGap at h
  unfold hasOutstandingNonLongPollingRequests
  simp only [decide_eq_true_eq]
  omega

theorem executeAfter_no_fire {s : SessionRouterState}
    (h : hasOutstandingNonLongPollingRequests s = true) :
    executeAfterPendingDispatches s = (s, []) := by
  unfold executeAfterPendingDispatches
  simp [h]

theorem drainCheckTask_reschedules {s : SessionRouterState}
    (h : hasOutstandingNonLongPollingRequests s = true) :
    drainCheckTask s = (s, [Effect.scheduleDrainCheck]) := by
  unfold drainCheckTask
  simp [h, deprecatedRunAfterPendingDispatches]

def isInvokeEffect : Effect → Bool
  | .invoke _ _ _ => true
  | _ => false

theorem proxyFanOut_filter_invoke (msg : Message) (l : List (String × SessionEntry)) :
    (proxyFanOut msg l).2.filter isInvokeEffect = [] := by
  induction l with
  | nil => rfl
  | cons p rest ih =>
      unfold proxyFanOut
      cases hp : p.2.proxyConnection with
      | none => exact ih
      | some proxy =>
          cases hb : proxy.hasOnMessage <;>
            simp [hb, List.filter_cons, isInvokeEffect, ih]

theorem proxyFanOut_no_invoke {msg : Message} {l : List (String × SessionEntry)}
    {e : Effect} (he : e ∈ (proxyFanOut msg l).2) : isInvokeEffect e = false := by
  have h := proxyFanOut_filter_invoke msg l
  rw [List.filter_eq_nil_iff] at h
  simpa using h e he

/-- C2: `unregisterSession` is a no-op for an unknown session id. For a known
session it synchronously deletes the session record, removing all its pending
callbacks (other sessions untouched), and schedules -- never invokes
synchronously -- exactly one connection-closed error
`{message, code := ConnectionClosedErrorCode, data := null}` per pending
call, in table order, each message citing that call's original method name. -/
theorem c2_unregister_session_errors :
    (∀ s sid, mapGet s.sessions sid = none → unregisterSession s sid = (s, [])) ∧
    (∀ s sid sess, mapGet s.sessions sid = some sess →
      (unregisterSession s sid).2 =
        sess.callbacks.map (fun q => Effect.scheduleError q.2.callback
          ⟨"Session is unregistering, can\x27t dispatch pending call to " ++ q.2.method, ConnectionClosedErrorCode, none⟩) ∧
      (unregisterSession s sid).2.length = sess.callbacks.length ∧
      (∀ e ∈ (unregisterSession s sid).2, isInvokeEffect e = false) ∧
      mapGet (unregisterSession s sid).1.sessions sid = none ∧
      (∀ sid2, sid2 ≠ sid →
        mapGet (unregisterSession s sid).1.sessions sid2 = mapGet s.sessions sid2)) := by
  constructor
  · intro s sid h
    exact unregisterSession_none h
  · intro s sid sess h
    rw [unregisterSession_some h]
    refine ⟨rfl, by simp, ?_, ?_, ?_⟩
    · intro e he
      simp only [List.mem_map] at he
      rcases he with ⟨q, hq, he⟩
      rw [← he]
      rfl
    · exact mapGet_mapDelete_self _ _
    · intro sid2 h2
      exact mapGet_mapDelete_ne _ _ _ h2

/-- Witness for C2 on a concrete router with two pending calls. -/
theorem c2_unregister_session_errors_witness :
    mapGet (⟨0, 3, 2, [], [("s", ⟨7, [(1, ⟨11, "DOM.getDocument"⟩), (2, ⟨12, "CSS.getMatchedStylesForNode"⟩)], none⟩)], []⟩ : SessionRouterState).sessions "s" =
      some ⟨7, [(1, ⟨11, "DOM.getDocument"⟩), (2, ⟨12, "CSS.getMatchedStylesForNode"⟩)], none⟩ ∧
    (unregisterSession (⟨0, 3, 2, [], [("s", ⟨7, [(1, ⟨11, "DOM.getDocument"⟩), (2, ⟨12, "CSS.getMatchedStylesForNode"⟩)], none⟩)], []⟩ : SessionRouterState) "s").2.length = 2 :=
  ⟨by decide,
    by
      have h := (c2_unregister_session_errors.2
        (⟨0, 3, 2, [], [("s", ⟨7, [(1, ⟨11, "DOM.getDocument"⟩), (2, ⟨12, "CSS.getMatchedStylesForNode"⟩)], none⟩)], []⟩ : SessionRouterState) "s"
        ⟨7, [(1, ⟨11, "DOM.getDocument"⟩), (2, ⟨12, "CSS.getMatchedStylesForNode"⟩)], none⟩ (by decide)).2.1
      rw [h]
      decide⟩

/-- C10: registering a session id that is already registered silently
replaces the record with a fresh one whose callback map is empty; the
replaced session's pending callbacks are discarded: `registerSession`
emits at most the multiple-proxy warning -- no callback invocation and no
scheduled connection-closed error -- and a subsequent response for one of
the discarded ids invokes nothing. -/
theorem c10_register_overwrite_discards :
    ∀ s t sid proxy old, mapGet s.sessions sid = some old →
      mapGet (registerSession s t sid proxy).1.sessions sid = some ⟨t, [], proxy⟩ ∧
      ((registerSession s t sid proxy).2 = [] ∨
        (registerSession s t sid proxy).2 = [Effect.consoleError multipleProxyWarningText]) ∧
      (∀ e ∈ (registerSession s t sid proxy).2,
        isInvokeEffect e = false ∧ ∀ cb err, e ≠ Effect.scheduleError cb err) ∧
      (∀ oldId mth prms err res,
        ((onMessage (registerSession s t sid none).1
          ⟨some oldId, some sid, mth, prms, err, res⟩).2.filter isInvokeEffect) = []) := by
  intro s t sid proxy old hold
  refine ⟨?_, ?_, ?_, ?_⟩
  · rw [registerSession_state]
    exact mapGet_mapSet_self _ _ _
  · unfold registerSession
    cases proxy with
    | none => left; rfl
    | some pr =>
        by_cases hany : s.sessions.any (fun p => p.2.proxyConnection.isSome)
        · right; simp [hany]
        · left; simp [hany]
  · intro e he
    unfold registerSession at he
    cases proxy with
    | none => simp at he
    | some pr =>
        by_cases hany : s.sessions.any (fun p => p.2.proxyConnection.isSome)
        · simp [hany] at he
          rw [he]
          exact ⟨rfl, by intro cb err hcontra; cases hcontra⟩
        · simp [hany] at he
  · intro oldId mth prms err res
    rw [registerSession_state]
    simp only [onMessage, Option.getD_some, mapGet_mapSet_self, Option.isSome_none,
      Bool.false_eq_true, if_false]
    simp [mapGet, List.filter_append, proxyFanOut_filter_invoke, isInvokeEffect]

/-- Witness for C10 on a concrete router: re-registering session "s" resets
its callback map and a stale response invokes nothing. -/
theorem c10_register_overwrite_discards_witness :
    mapGet (⟨0, 2, 1, [], [("s", ⟨7, [(1, ⟨11, "DOM.getDocument"⟩)], none⟩)], []⟩ : SessionRouterState).sessions "s" = some ⟨7, [(1, ⟨11, "DOM.getDocument"⟩)], none⟩ ∧
    mapGet (registerSession (⟨0, 2, 1, [], [("s", ⟨7, [(1, ⟨11, "DOM.getDocument"⟩)], none⟩)], []⟩ : SessionRouterState) 8 "s" none).1.sessions "s" = some ⟨8, [], none⟩ ∧
    ((onMessage (registerSession (⟨0, 2, 1, [], [("s", ⟨7, [(1, ⟨11, "DOM.getDocument"⟩)], none⟩)], []⟩ : SessionRouterState) 8 "s" none).1
      ⟨some 1, some "s", none, none, none, some []⟩).2.filter isInvokeEffect) = [] :=
  ⟨by decide,
    (c10_register_overwrite_discards
      (⟨0, 2, 1, [], [("s", ⟨7, [(1, ⟨11, "DOM.getDocument"⟩)], none⟩)], []⟩ : SessionRouterState)
      8 "s" none ⟨7, [(1, ⟨11, "DOM.getDocument"⟩)], none⟩ (by decide)).1,
    (c10_register_overwrite_discards
      (⟨0, 2, 1, [], [("s", ⟨7, [(1, ⟨11, "DOM.getDocument"⟩)], none⟩)], []⟩ : SessionRouterState)
      8 "s" none ⟨7, [(1, ⟨11, "DOM.getDocument"⟩)], none⟩ (by decide)).2.2.2 1 none none none (some [])⟩

/-- C7: the drain barrier enqueues its callback at the end of the queue and
schedules a check on the next macrotask tick; while non-long-polling requests
are outstanding a check tick reschedules itself and changes nothing; once
quiescent, a tick clears the queue first and then runs, in FIFO order,
exactly the callbacks queued before the pass began, so a callback enqueued
during or after the pass is not run by it and waits in the fresh queue. -/
theorem c7_drain_barrier :
    (∀ s sc, deprecatedRunAfterPendingDispatches s (some sc) =
      ({ s with pendingScripts := s.pendingScripts ++ [sc] }, [Effect.scheduleDrainCheck])) ∧
    (∀ s, hasOutstandingNonLongPollingRequests s = true →
      drainCheckTask s = (s, [Effect.scheduleDrainCheck])) ∧
    (∀ s, hasOutstandingNonLongPollingRequests s = false →
      drainCheckTask s = ({ s with pendingScripts := [] }, s.pendingScripts.map Effect.runScript)) ∧
    (∀ s sc, hasOutstandingNonLongPollingRequests s = false → sc ∉ s.pendingScripts →
      Effect.runScript sc ∉ (drainCheckTask s).2 ∧
      (deprecatedRunAfterPendingDispatches (drainCheckTask s).1 (some sc)).1.pendingScripts = [sc]) := by
  refine ⟨fun s sc => rfl, ?_, ?_, ?_⟩
  · intro s h
    exact drainCheckTask_reschedules h
  · intro s h
    unfold drainCheckTask executeAfterPendingDispatches
    simp [h]
  · intro s sc h hni
    have hrw : drainCheckTask s = ({ s with pendingScripts := [] }, s.pendingScripts.map Effect.runScript) := by
      unfold drainCheckTask executeAfterPendingDispatches
      simp [h]
    rw [hrw]
    constructor
    · intro hmem
      simp only [List.mem_map] at hmem
      rcases hmem with ⟨x, hx, hx2⟩
      cases hx2
      exact hni hx
    · rfl

/-- Witness for C7 on a concrete quiescent router with one queued script. -/
theorem c7_drain_barrier_witness :
    hasOutstandingNonLongPollingRequests (⟨0, 1, 0, [], [], [5]⟩ : SessionRouterState) = false ∧
    drainCheckTask (⟨0, 1, 0, [], [], [5]⟩ : SessionRouterState) =
      (⟨0, 1, 0, [], [], []⟩, [Effect.runScript 5]) ∧
    hasOutstandingNonLongPollingRequests (⟨0, 2, 1, [], [], [5]⟩ : SessionRouterState) = true ∧
    drainCheckTask (⟨0, 2, 1, [], [], [5]⟩ : SessionRouterState) =
      (⟨0, 2, 1, [], [], [5]⟩, [Effect.scheduleDrainCheck]) :=
  ⟨by decide,
    by
      rw [c7_drain_barrier.2.2.1 (⟨0, 1, 0, [], [], [5]⟩ : SessionRouterState) (by decide)]
      rfl,
    by decide,
    by
      rw [c7_drain_barrier.2.1 (⟨0, 2, 1, [], [], [5]⟩ : SessionRouterState) (by decide)]⟩

/-- The C3 scenario router: one registered session, one in-flight
long-polling call (id 1) and one in-flight normal call (id 2). -/
def c3router : SessionRouterState :=
  (sendMessage (sendMessage (registerSession (initialRouter 0) 7 "s" none).1
    "s" "CSS" "CSS.takeComputedStyleUpdates" none 1).1
    "s" "DOM" "DOM.getDocument" none 2).1

/-- C3: long-polling calls are excluded from drain accounting: with one
long-polling and one normal call in flight the drain condition is
unsatisfied; answering only the long-polling call leaves it unsatisfied
(a queued drain callback is rescheduled, not run), while answering only the
normal call satisfies it (the queued drain callback runs). -/
theorem c3_long_polling_excluded_from_drain :
    isLongPolling "CSS.takeComputedStyleUpdates" = true ∧
    isLongPolling "DOM.getDocument" = false ∧
    hasOutstandingNonLongPollingRequests c3router = true ∧
    hasOutstandingNonLongPollingRequests
      (onMessage c3router ⟨some 1, some "s", none, none, none, some []⟩).1 = true ∧
    hasOutstandingNonLongPollingRequests
      (onMessage c3router ⟨some 2, some "s", none, none, none, some []⟩).1 = false ∧
    (drainCheckTask (deprecatedRunAfterPendingDispatches
      (onMessage c3router ⟨some 1, some "s", none, none, none, some []⟩).1 (some 9)).1).2 =
      [Effect.scheduleDrainCheck] ∧
    (drainCheckTask (deprecatedRunAfterPendingDispatches
      (onMessage c3router ⟨some 2, some "s", none, none, none, some []⟩).1 (some 9)).1).2 =
      [Effect.runScript 9] := by
  decide

theorem onMessage_matched_effects {s : SessionRouterState} {sid : String}
    {sess : SessionEntry} {id : Nat} {c : CallbackWithDebugInfo}
    (mth : Option String) (prms : Option JSObj) (err : Option ErrObj) (res : Option JSObj)
    (hg : mapGet s.sessions sid = some sess)
    (hpc : sess.proxyConnection = none)
    (hc : mapGet sess.callbacks id = some c) :
    (onMessage s ⟨some id, some sid, mth, prms, err, res⟩).2 =
      (proxyFanOut ⟨some id, some sid, mth, prms, err, res⟩ s.sessions).2 ++
        [Effect.invoke c.callback err res] ∨
    (onMessage s ⟨some id, some sid, mth, prms, err, res⟩).2 =
      (proxyFanOut ⟨some id, some sid, mth, prms, err, res⟩ s.sessions).2 ++
        [Effect.invoke c.callback err res, Effect.scheduleDrainCheck] := by
  simp only [onMessage, Option.getD_some, hg, hpc, Option.isSome_none, Bool.false_eq_true,
    if_false, hc]
  split
  · right
    rfl
  · left
    rfl

theorem onMessage_matched_state {s : SessionRouterState} {sid : String}
    {sess : SessionEntry} {id : Nat} {c : CallbackWithDebugInfo}
    (mth : Option String) (prms : Option JSObj) (err : Option ErrObj) (res : Option JSObj)
    (hg : mapGet s.sessions sid = some sess)
    (hpc : sess.proxyConnection = none)
    (hc : mapGet sess.callbacks id = some c) :
    (onMessage s ⟨some id, some sid, mth, prms, err, res⟩).1 =
      { s with
        sessions := mapSet s.sessions sid ({ sess with callbacks := mapDelete sess.callbacks id }),
        pendingResponsesCount := s.pendingResponsesCount - 1,
        pendingLongPollingMessageIds := setDelete s.pendingLongPollingMessageIds id } := by
  simp only [onMessage, Option.getD_some, hg, hpc, Option.isSome_none, Bool.false_eq_true,
    if_false, hc]
  split <;> rfl

/-- C1: a reply carrying a pending id, arriving in any state (hence in any
order relative to other replies), synchronously invokes exactly the callback
stored for that id, with `(error ?? null, result ?? null)`, removes exactly
that entry from the session's pending map and decrements the pending count;
a send to a known session stores `(callback, method)` under the freshly
allocated id; and no single turn ever rebinds a pending id to a different
callback -- the entry either survives unchanged or disappears, so delivery
always goes to the callback stored at send time. -/
theorem c1_reply_correlation :
    (∀ s sid sess id c mth prms err res,
      mapGet s.sessions sid = some sess →
      sess.proxyConnection = none →
      mapGet sess.callbacks id = some c →
      ((onMessage s ⟨some id, some sid, mth, prms, err, res⟩).2.filter isInvokeEffect =
        [Effect.invoke c.callback err res]) ∧
      (∃ sess2, mapGet (onMessage s ⟨some id, some sid, mth, prms, err, res⟩).1.sessions sid = some sess2 ∧
        mapGet sess2.callbacks id = none ∧
        (∀ id2, id2 ≠ id → mapGet sess2.callbacks id2 = mapGet sess.callbacks id2)) ∧
      (onMessage s ⟨some id, some sid, mth, prms, err, res⟩).1.pendingResponsesCount =
        s.pendingResponsesCount - 1) ∧
    (∀ s sid sess d m p cb, mapGet s.sessions sid = some sess →
      ∃ sess2, mapGet (sendMessage s sid d m p cb).1.sessions sid = some sess2 ∧
        mapGet sess2.callbacks s.lastMessageId = some ⟨cb, m⟩) ∧
    (∀ s sid sess id c op, mapGet s.sessions sid = some sess →
      mapGet sess.callbacks id = some c → id < s.lastMessageId →
      ∀ sess2, mapGet (stepState s op).sessions sid = some sess2 →
        mapGet sess2.callbacks id = some c ∨ mapGet sess2.callbacks id = none) := by
  refine ⟨?_, ?_, ?_⟩
  · intro s sid sess id c mth prms err res hg hpc hc
    have hstate := onMessage_matched_state mth prms err res hg hpc hc
    refine ⟨?_, ?_, ?_⟩
    · rcases onMessage_matched_effects mth prms err res hg hpc hc with he | he <;>
        rw [he, List.filter_append, proxyFanOut_filter_invoke] <;>
        simp [isInvokeEffect]
    · refine ⟨{ sess with callbacks := mapDelete sess.callbacks id }, ?_, ?_, ?_⟩
      · rw [hstate]
        exact mapGet_mapSet_self _ _ _
      · exact mapGet_mapDelete_self _ _
      · intro id2 h2
        exact mapGet_mapDelete_ne _ _ _ h2
    · rw [hstate]
  · intro s sid sess d m p cb hg
    have hstep : (sendMessage s sid d m p cb).1 =
        { s with
          lastMessageId := s.lastMessageId + 1,
          pendingResponsesCount := s.pendingResponsesCount + 1,
          pendingLongPollingMessageIds :=
            if isLongPolling m then setAdd s.pendingLongPollingMessageIds s.lastMessageId
            else s.pendingLongPollingMessageIds,
          sessions := mapSet s.sessions sid ({ sess with callbacks := mapSet sess.callbacks s.lastMessageId ⟨cb, m⟩ }) } := by
      rw [sendMessage_some d m p cb hg]
    refine ⟨{ sess with callbacks := mapSet sess.callbacks s.lastMessageId ⟨cb, m⟩ }, ?_, ?_⟩
    · rw [hstep]
      exact mapGet_mapSet_self _ _ _
    · exact mapGet_mapSet_self _ _ _
  · intro s sid sess id c op hg hc hid sess2 h2
    cases op with
    | register t sid2 proxy =>
        have hstep : (stepState s (Op.register t sid2 proxy)).sessions =
            mapSet s.sessions sid2 ⟨t, [], proxy⟩ := by
          show (registerSession s t sid2 proxy).1.sessions = _
          rw [registerSession_state]
        rw [hstep] at h2
        by_cases he : sid2 = sid
        · subst he
          rw [mapGet_mapSet_self] at h2
          right
          cases h2
          rfl
        · rw [mapGet_mapSet_ne _ _ _ _ (fun hh => he hh.symm), hg] at h2
          cases h2
          left
          exact hc
    | unregister sid2 =>
        cases hg2 : mapGet s.sessions sid2 with
        | none =>
            have hstep : stepState s (Op.unregister sid2) = s := by
              show (unregisterSession s sid2).1 = s
              rw [unregisterSession_none hg2]
            rw [hstep, hg] at h2
            cases h2
            left
            exact hc
        | some sess3 =>
            have hstep : stepState s (Op.unregister sid2) =
                { s with sessions := mapDelete s.sessions sid2 } := by
              show (unregisterSession s sid2).1 = _
              rw [unregisterSession_some hg2]
            rw [hstep] at h2
            by_cases he : sid2 = sid
            · subst he
              rw [mapGet_mapDelete_self] at h2
              cases h2
            · rw [mapGet_mapDelete_ne _ _ _ (fun hh => he hh.symm), hg] at h2
              cases h2
              left
              exact hc
    | send sid2 d m p cb =>
        cases hg2 : mapGet s.sessions sid2 with
        | none =>
            have hstep : (stepState s (Op.send sid2 d m p cb)).sessions = s.sessions := by
              show (sendMessage s sid2 d m p cb).1.sessions = s.sessions
              rw [sendMessage_none d m p cb hg2]
            rw [hstep, hg] at h2
            cases h2
            left
            exact hc
        | some sess3 =>
            have hstep : (stepState s (Op.send sid2 d m p cb)).sessions =
                mapSet s.sessions sid2 ({ sess3 with callbacks := mapSet sess3.callbacks s.lastMessageId ⟨cb, m⟩ }) := by
              show (sendMessage s sid2 d m p cb).1.sessions = _
              rw [sendMessage_some d m p cb hg2]
            rw [hstep] at h2
            by_cases he : sid2 = sid
            · subst he
              rw [hg] at hg2
              cases hg2
              rw [mapGet_mapSet_self] at h2
              cases h2
              left
              rw [show ({ sess with callbacks := mapSet sess.callbacks s.lastMessageId ⟨cb, m⟩ } : SessionEntry).callbacks = mapSet sess.callbacks s.lastMessageId ⟨cb, m⟩ from rfl]
              rw [mapGet_mapSet_ne _ _ _ _ (by omega)]
              exact hc
            · rw [mapGet_mapSet_ne _ _ _ _ (fun hh => he hh.symm), hg] at h2
              cases h2
              left
              exact hc
    | recv msg =>
        rcases onMessage_state_cases s msg with h | ⟨sess3, msgId, c3, hg3, hpc3, hid3, hc3, h⟩
        · have hstep : stepState s (Op.recv msg) = s := h
          rw [hstep, hg] at h2
          cases h2
          left
          exact hc
        · have hstep : (stepState s (Op.recv msg)).sessions =
              mapSet s.sessions (msg.sessionId.getD "") ({ sess3 with callbacks := mapDelete sess3.callbacks msgId }) := by
            show (onMessage s msg).1.sessions = _
            rw [h]
          rw [hstep] at h2
          by_cases he : msg.sessionId.getD "" = sid
          · subst he
            rw [hg] at hg3
            cases hg3
            rw [mapGet_mapSet_self] at h2
            cases h2
            rw [show ({ sess with callbacks := mapDelete sess.callbacks msgId } : SessionEntry).callbacks = mapDelete sess.callbacks msgId from rfl]
            by_cases hide : id = msgId
            · subst hide
              right
              exact mapGet_mapDelete_self _ _
            · left
              rw [mapGet_mapDelete_ne _ _ _ hide]
              exact hc
          · rw [mapGet_mapSet_ne _ _ _ _ (fun hh => he hh.symm), hg] at h2
            cases h2
            left
            exact hc
    | runAfter sc =>
        have hstep : (stepState s (Op.runAfter sc)).sessions = s.sessions := by
          show (deprecatedRunAfterPendingDispatches s sc).1.sessions = s.sessions
          rw [runAfter_core]
        rw [hstep, hg] at h2
        cases h2
        left
        exact hc
    | drainTick =>
        have hstep : (stepState s Op.drainTick).sessions = s.sessions := by
          show (drainCheckTask s).1.sessions = s.sessions
          rw [drainCheckTask_core]
        rw [hstep, hg] at h2
        cases h2
        left
        exact hc
    | execPending =>
        have hstep : (stepState s Op.execPending).sessions = s.sessions := by
          show (executeAfterPendingDispatches s).1.sessions = s.sessions
          rw [executeAfter_core]
        rw [hstep, hg] at h2
        cases h2
        left
        exact hc

/-- Concrete router for the C1 witness: two calls in flight on session "s". -/
def c1wSess : SessionEntry :=
  ⟨7, [(1, ⟨11, "DOM.getDocument"⟩), (2, ⟨12, "CSS.getMatchedStylesForNode"⟩)], none⟩

def c1wState : SessionRouterState := ⟨0, 3, 2, [], [("s", c1wSess)], []⟩

/-- Witness for C1: the reply to id 2 is delivered out of send order and
reaches exactly callback 12 with the reply's error/result fields. -/
theorem c1_reply_correlation_witness :
    mapGet c1wState.sessions "s" = some c1wSess ∧
    c1wSess.proxyConnection = none ∧
    mapGet c1wSess.callbacks 2 = some ⟨12, "CSS.getMatchedStylesForNode"⟩ ∧
    ((onMessage c1wState ⟨some 2, some "s", none, none, none, some [("x", JSVal.vNum 3)]⟩).2.filter isInvokeEffect =
      [Effect.invoke 12 none (some [("x", JSVal.vNum 3)])]) ∧
    (onMessage c1wState ⟨some 2, some "s", none, none, none, some [("x", JSVal.vNum 3)]⟩).1.pendingResponsesCount = 1 :=
  ⟨by decide, by decide, by decide,
    (c1_reply_correlation.1 c1wState "s" c1wSess 2 ⟨12, "CSS.getMatchedStylesForNode"⟩
      none none none (some [("x", JSVal.vNum 3)]) (by decide) (by decide) (by decide)).1,
    by decide⟩

/-- The proxy forwards an `_onMessage` pass produces, in session order. -/
def proxyForwardList (s : SessionRouterState) (msg : Message) : List Effect :=
  s.sessions.filterMap
    (fun p => p.2.proxyConnection.map (fun pr => Effect.proxyForward pr.pid msg))

theorem proxyFanOut_all_handlers {msg : Message} {l : List (String × SessionEntry)}
    (hall : ∀ p ∈ l, ∀ pr, p.2.proxyConnection = some pr → pr.hasOnMessage = true) :
    (proxyFanOut msg l).2 =
      l.filterMap (fun p => p.2.proxyConnection.map (fun pr => Effect.proxyForward pr.pid msg)) := by
  induction l with
  | nil => rfl
  | cons p rest ih =>
      have hall2 : ∀ q ∈ rest, ∀ pr, q.2.proxyConnection = some pr → pr.hasOnMessage = true :=
        fun q hq => hall q (List.mem_cons_of_mem _ hq)
      unfold proxyFanOut
      cases hp : p.2.proxyConnection with
      | none => simp [List.filterMap_cons, hp, ih hall2]
      | some pr =>
          have hb := hall p (List.mem_cons_self _ _) pr hp
          simp [List.filterMap_cons, hp, hb, ih hall2]

theorem proxyFanOut_suppress_iff (msg : Message) (l : List (String × SessionEntry)) :
    (proxyFanOut msg l).1 = true ↔
      ∃ p ∈ l, ∃ pr, p.2.proxyConnection = some pr ∧ pr.hasOnMessage = true := by
  induction l with
  | nil => simp [proxyFanOut]
  | cons p rest ih =>
      unfold proxyFanOut
      cases hp : p.2.proxyConnection with
      | none =>
          rw [ih]
          constructor
          · rintro ⟨q, hq, pr, h1, h2⟩
            exact ⟨q, List.mem_cons_of_mem _ hq, pr, h1, h2⟩
          · rintro ⟨q, hq, pr, h1, h2⟩
            rcases List.mem_cons.1 hq with he | he
            · subst he
              rw [hp] at h1
              cases h1
            · exact ⟨q, he, pr, h1, h2⟩
      | some pr =>
          cases hb : pr.hasOnMessage with
          | true =>
              simp only [hb, if_true]
              constructor
              · intro _
                exact ⟨p, List.mem_cons_self _ _, pr, hp, hb⟩
              · intro _
                trivial
          | false =>
              simp only [hb, Bool.false_eq_true, if_false]
              rw [ih]
              constructor
              · rintro ⟨q, hq, pr2, h1, h2⟩
                exact ⟨q, List.mem_cons_of_mem _ hq, pr2, h1, h2⟩
              · rintro ⟨q, hq, pr2, h1, h2⟩
                rcases List.mem_cons.1 hq with he | he
                · subst he
                  rw [hp] at h1
                  cases h1
                  rw [hb] at h2
                  cases h2
                · exact ⟨q, he, pr2, h1, h2⟩

theorem mem_proxyFanOut {msg : Message} {l : List (String × SessionEntry)} {e : Effect}
    (he : e ∈ (proxyFanOut msg l).2) :
    (∃ pid, e = Effect.proxyForward pid msg) ∨
      e = Effect.protocolError proxyNoOnMessageErrorText := by
  induction l with
  | nil => simp [proxyFanOut] at he
  | cons p rest ih =>
      unfold proxyFanOut at he
      cases hp : p.2.proxyConnection with
      | none =>
          simp only [hp] at he
          exact ih he
      | some pr =>
          simp only [hp] at he
          cases hb : pr.hasOnMessage with
          | true =>
              simp only [hb, if_true] at he
              rcases List.mem_cons.1 he with h1 | h1
              · left
                exact ⟨pr.pid, h1⟩
              · exact ih h1
          | false =>
              simp only [hb, Bool.false_eq_true, if_false] at he
              rcases List.mem_cons.1 he with h1 | h1
              · right
                exact h1
              · exact ih h1

theorem onMessage_effects_fanned (s : SessionRouterState) (msg : Message) :
    ∃ rest, (onMessage s msg).2 = (proxyFanOut msg s.sessions).2 ++ rest := by
  cases hg : mapGet s.sessions (msg.sessionId.getD "") with
  | none =>
      refine ⟨if (proxyFanOut msg s.sessions).1 then [] else [Effect.protocolError wrongSessionIdErrorText], ?_⟩
      simp only [onMessage, hg]
  | some sess =>
      cases hpc : sess.proxyConnection with
      | some pr =>
          refine ⟨[], ?_⟩
          simp [onMessage, hg, hpc]
      | none =>
          cases hid : msg.id with
          | none =>
              cases hm : msg.method with
              | none =>
                  refine ⟨[Effect.protocolError withoutMethodErrorText], ?_⟩
                  simp [onMessage, hg, hpc, hid, hm]
              | some m =>
                  refine ⟨[Effect.dispatchEvent sess.target msg], ?_⟩
                  simp [onMessage, hg, hpc, hid, hm]
          | some msgId =>
              cases hc : mapGet sess.callbacks msgId with
              | none =>
                  refine ⟨if (proxyFanOut msg s.sessions).1 then [] else [Effect.protocolError wrongIdErrorText], ?_⟩
                  simp only [onMessage, hg, hpc, hid, hc, Option.isSome_none,
                    Bool.false_eq_true, if_false]
              | some c =>
                  simp only [onMessage, hg, hpc, hid, hc, Option.isSome_none,
                    Bool.false_eq_true, if_false]
                  split
                  · exact ⟨[Effect.invoke c.callback msg.error msg.result, Effect.scheduleDrainCheck], rfl⟩
                  · exact ⟨[Effect.invoke c.callback msg.error msg.result], rfl⟩

theorem mem_onMessage_effects {s : SessionRouterState} {msg : Message} {e : Effect}
    (hsup : (proxyFanOut msg s.sessions).1 = true)
    (he : e ∈ (onMessage s msg).2) :
    e ∈ (proxyFanOut msg s.sessions).2 ∨
      (∃ cb er r, e = Effect.invoke cb er r) ∨ e = Effect.scheduleDrainCheck ∨
      (∃ t, e = Effect.dispatchEvent t msg) ∨
      e = Effect.protocolError withoutMethodErrorText := by
  cases hg : mapGet s.sessions (msg.sessionId.getD "") with
  | none =>
      simp only [onMessage, hg, hsup, if_true, List.append_nil] at he
      left
      exact he
  | some sess =>
      cases hpc : sess.proxyConnection with
      | some pr =>
          simp only [onMessage, hg, hpc, Option.isSome_some, if_true] at he
          left
          exact he
      | none =>
          cases hid : msg.id with
          | none =>
              cases hm : msg.method with
              | none =>
                  simp only [onMessage, hg, hpc, hid, hm, Option.isSome_none,
                    Bool.false_eq_true, if_false] at he
                  rcases List.mem_append.1 he with h1 | h1
                  · left; exact h1
                  · right; right; right; right
                    simpa using h1
              | some m =>
                  simp only [onMessage, hg, hpc, hid, hm, Option.isSome_none,
                    Bool.false_eq_true, if_false] at he
                  rcases List.mem_append.1 he with h1 | h1
                  · left; exact h1
                  · right; right; right; left
                    exact ⟨sess.target, by simpa using h1⟩
          | some msgId =>
              cases hc : mapGet sess.callbacks msgId with
              | none =>
                  simp only [onMessage, hg, hpc, hid, hc, Option.isSome_none,
                    Bool.false_eq_true, if_false, hsup, if_true, List.append_nil] at he
                  left
                  exact he
              | some c =>
                  simp only [onMessage, hg, hpc, hid, hc, Option.isSome_none,
                    Bool.false_eq_true, if_false] at he
                  split at he
                  · rcases List.mem_append.1 he with h1 | h1
                    · left; exact h1
                    · rcases List.mem_cons.1 h1 with h2 | h2
                      · right; left
                        exact ⟨c.callback, msg.error, msg.result, h2⟩
                      · right; right; left
                        rw [deprecatedRunAfterPendingDispatches_none] at h2
                        simpa using h2
                  · rcases List.mem_append.1 he with h1 | h1
                    · left; exact h1
                    · right; left
                      exact ⟨c.callback, msg.error, msg.result, by simpa using h1⟩

/-- C6: every incoming message is first forwarded verbatim to every session
holding a proxy connection (with its `_onMessage` handler installed) -- the
forwards are a prefix of the turn's effects; when at least one such proxy
consumed the message, the "unknown session" and "unknown id" protocol errors
are suppressed for it; and when no proxy consumed it, a session without a
proxy whose id matches no pending callback still reports the "wrong id"
protocol error. -/
theorem c6_proxy_fanout_and_suppression :
    (∀ s msg,
      (∀ p ∈ s.sessions, ∀ pr, p.2.proxyConnection = some pr → pr.hasOnMessage = true) →
      ∃ rest, (onMessage s msg).2 = proxyForwardList s msg ++ rest) ∧
    (∀ s msg,
      (∃ p ∈ s.sessions, ∃ pr, p.2.proxyConnection = some pr ∧ pr.hasOnMessage = true) →
      Effect.protocolError wrongSessionIdErrorText ∉ (onMessage s msg).2 ∧
      Effect.protocolError wrongIdErrorText ∉ (onMessage s msg).2) ∧
    (∀ s sid sess id mth prms err res,
      (proxyFanOut ⟨some id, some sid, mth, prms, err, res⟩ s.sessions).1 = false →
      mapGet s.sessions sid = some sess →
      sess.proxyConnection = none →
      mapGet sess.callbacks id = none →
      Effect.protocolError wrongIdErrorText ∈
        (onMessage s ⟨some id, some sid, mth, prms, err, res⟩).2) := by
  refine ⟨?_, ?_, ?_⟩
  · intro s msg hall
    rcases onMessage_effects_fanned s msg with ⟨rest, h⟩
    refine ⟨rest, ?_⟩
    rw [h, proxyFanOut_all_handlers hall]
    rfl
  · intro s msg hex
    have hsup : (proxyFanOut msg s.sessions).1 = true :=
      (proxyFanOut_suppress_iff msg s.sessions).2 hex
    constructor
    · intro hmem
      rcases mem_onMessage_effects hsup hmem with h | h | h | h | h
      · rcases mem_proxyFanOut h with ⟨pid, h2⟩ | h2
        · cases h2
        · injection h2 with h3
          exact absurd h3 (by decide)
      · rcases h with ⟨cb, er, r, h2⟩
        cases h2
      · cases h
      · rcases h with ⟨t, h2⟩
        cases h2
      · injection h with h3
        exact absurd h3 (by decide)
    · intro hmem
      rcases mem_onMessage_effects hsup hmem with h | h | h | h | h
      · rcases mem_proxyFanOut h with ⟨pid, h2⟩ | h2
        · cases h2
        · injection h2 with h3
          exact absurd h3 (by decide)
      · rcases h with ⟨cb, er, r, h2⟩
        cases h2
      · cases h
      · rcases h with ⟨t, h2⟩
        cases h2
      · injection h with h3
        exact absurd h3 (by decide)
  · intro s sid sess id mth prms err res hsup hg hpc hc
    simp only [onMessage, Option.getD_some, hg, hpc, Option.isSome_none, Bool.false_eq_true,
      if_false, hc, hsup]
    exact List.mem_append.2 (Or.inr (List.mem_singleton.2 rfl))

/-- Witness for C6: a router with one proxy session and one plain session;
the unmatched reply id is suppressed while the proxy consumed the message,
and reported once no proxy exists. -/
theorem c6_proxy_fanout_and_suppression_witness :
    (∃ rest, (onMessage (⟨0, 5, 1, [], [("p", ⟨3, [], some ⟨21, true⟩⟩), ("s", ⟨7, [(1, ⟨11, "DOM.getDocument"⟩)], none⟩)], []⟩ : SessionRouterState) ⟨some 9, some "s", none, none, none, none⟩).2 =
      proxyForwardList (⟨0, 5, 1, [], [("p", ⟨3, [], some ⟨21, true⟩⟩), ("s", ⟨7, [(1, ⟨11, "DOM.getDocument"⟩)], none⟩)], []⟩ : SessionRouterState) ⟨some 9, some "s", none, none, none, none⟩ ++ rest) ∧
    Effect.protocolError wrongIdErrorText ∉
      (onMessage (⟨0, 5, 1, [], [("p", ⟨3, [], some ⟨21, true⟩⟩), ("s", ⟨7, [(1, ⟨11, "DOM.getDocument"⟩)], none⟩)], []⟩ : SessionRouterState) ⟨some 9, some "s", none, none, none, none⟩).2 ∧
    Effect.protocolError wrongIdErrorText ∈
      (onMessage (⟨0, 5, 1, [], [("s", ⟨7, [(1, ⟨11, "DOM.getDocument"⟩)], none⟩)], []⟩ : SessionRouterState) ⟨some 9, some "s", none, none, none, none⟩).2 :=
  ⟨c6_proxy_fanout_and_suppression.1 _ _
    (by
      intro p hp pr hpr
      rcases List.mem_cons.1 hp with h | h
      · subst h
        cases hpr
        rfl
      · rcases List.mem_cons.1 h with h2 | h2
        · subst h2
          cases hpr
        · simp at h2),
    (c6_proxy_fanout_and_suppression.2.1 _ ⟨some 9, some "s", none, none, none, none⟩
      ⟨("p", ⟨3, [], some ⟨21, true⟩⟩), by decide, ⟨21, true⟩, rfl, rfl⟩).2,
    c6_proxy_fanout_and_suppression.2.2 _ "s" ⟨7, [(1, ⟨11, "DOM.getDocument"⟩)], none⟩ 9
      none none none none (by decide) (by decide) rfl (by decide)⟩

theorem onMessage_unmatched_state {s : SessionRouterState} {sid : String}
    {sess : SessionEntry} {id : Nat}
    (mth : Option String) (prms : Option JSObj) (err : Option ErrObj) (res : Option JSObj)
    (hg : mapGet s.sessions sid = some sess)
    (hpc : sess.proxyConnection = none)
    (hc : mapGet sess.callbacks id = none) :
    (onMessage s ⟨some id, some sid, mth, prms, err, res⟩).1 = s := by
  have h2 : mapSet s.sessions sid ({ sess with callbacks := mapDelete sess.callbacks id }) =
      s.sessions := by
    rw [mapDelete_eq_of_get_none hc]
    exact mapSet_self hg
  rw [hpc] at h2
  simp [onMessage, hg, hpc, hc, h2]

/-- C9: the pending-responses count is decremented only by a response whose
id matches a stored callback (every other turn leaves it equal or larger,
and an unmatched response leaves the state untouched); a send to an unknown
session id still increments the count -- and, for a long-polling method, the
long-polling id set -- while registering no callback and handing nothing to
the transport; `unregisterSession` never changes the count. Consequently,
after one dropped non-long-polling send, or one `unregisterSession` of a
session with a pending non-long-polling call, on a reachable router state
`_hasOutstandingNonLongPollingRequests` answers `true` after every further
operation sequence, so `_executeAfterPendingDispatches` never runs a queued
script again and a drain-check tick only ever reschedules itself. -/
theorem c9_drain_accounting_leak :
    (∀ s op, (stepState s op).pendingResponsesCount < s.pendingResponsesCount →
      ∃ msg sess msgId c, op = Op.recv msg ∧
        mapGet s.sessions (msg.sessionId.getD "") = some sess ∧
        sess.proxyConnection = none ∧ msg.id = some msgId ∧
        mapGet sess.callbacks msgId = some c ∧
        (stepState s op).pendingResponsesCount = s.pendingResponsesCount - 1) ∧
    (∀ s sid sess id mth prms err res,
      mapGet s.sessions sid = some sess → sess.proxyConnection = none →
      mapGet sess.callbacks id = none →
      (onMessage s ⟨some id, some sid, mth, prms, err, res⟩).1 = s) ∧
    (∀ s sid d m p cb, mapGet s.sessions sid = none →
      (sendMessage s sid d m p cb).1.pendingResponsesCount = s.pendingResponsesCount + 1 ∧
      (sendMessage s sid d m p cb).1.sessions = s.sessions ∧
      (isLongPolling m = true →
        (sendMessage s sid d m p cb).1.pendingLongPollingMessageIds =
          setAdd s.pendingLongPollingMessageIds s.lastMessageId) ∧
      (sendMessage s sid d m p cb).2 = []) ∧
    (∀ s sid, (unregisterSession s sid).1.pendingResponsesCount = s.pendingResponsesCount) ∧
    (∀ s sid d m p cb ops, RouterInv s → mapGet s.sessions sid = none →
      isLongPolling m = false →
      hasOutstandingNonLongPollingRequests (steps (sendMessage s sid d m p cb).1 ops) = true ∧
      executeAfterPendingDispatches (steps (sendMessage s sid d m p cb).1 ops) =
        (steps (sendMessage s sid d m p cb).1 ops, []) ∧
      drainCheckTask (steps (sendMessage s sid d m p cb).1 ops) =
        (steps (sendMessage s sid d m p cb).1 ops, [Effect.scheduleDrainCheck])) ∧
    (∀ s sid sess id c ops, RouterInv s → mapGet s.sessions sid = some sess →
      mapGet sess.callbacks id = some c → isLongPolling c.method = false →
      hasOutstandingNonLongPollingRequests (steps (unregisterSession s sid).1 ops) = true ∧
      executeAfterPendingDispatches (steps (unregisterSession s sid).1 ops) =
        (steps (unregisterSession s sid).1 ops, []) ∧
      drainCheckTask (steps (unregisterSession s sid).1 ops) =
        (steps (unregisterSession s sid).1 ops, [Effect.scheduleDrainCheck])) := by
  refine ⟨?_, ?_, ?_, ?_, ?_, ?_⟩
  · intro s op hlt
    cases op with
    | register t sid proxy =>
        exfalso
        have hstep : stepState s (Op.register t sid proxy) =
            { s with sessions := mapSet s.sessions sid ⟨t, [], proxy⟩ } :=
          registerSession_state s t sid proxy
        rw [hstep] at hlt
        exact lt_irrefl _ hlt
    | unregister sid =>
        exfalso
        cases hg : mapGet s.sessions sid with
        | none =>
            have hstep : stepState s (Op.unregister sid) = s := by
              show (unregisterSession s sid).1 = s
              rw [unregisterSession_none hg]
            rw [hstep] at hlt
            exact lt_irrefl _ hlt
        | some sess =>
            have hstep : stepState s (Op.unregister sid) =
                { s with sessions := mapDelete s.sessions sid } := by
              show (unregisterSession s sid).1 = _
              rw [unregisterSession_some hg]
            rw [hstep] at hlt
            exact lt_irrefl _ hlt
    | send sid d m p cb =>
        exfalso
        have hc2 : s.pendingResponsesCount + 1 < s.pendingResponsesCount := by
          cases hg : mapGet s.sessions sid with
          | none =>
              have hstep : stepState s (Op.send sid d m p cb) =
                  { s with
                    lastMessageId := s.lastMessageId + 1,
                    pendingResponsesCount := s.pendingResponsesCount + 1,
                    pendingLongPollingMessageIds :=
                      if isLongPolling m then setAdd s.pendingLongPollingMessageIds s.lastMessageId
                      else s.pendingLongPollingMessageIds } := by
                show (sendMessage s sid d m p cb).1 = _
                rw [sendMessage_none d m p cb hg]
              rw [hstep] at hlt
              exact hlt
          | some sess =>
              have hstep : stepState s (Op.send sid d m p cb) =
                  { s with
                    lastMessageId := s.lastMessageId + 1,
                    pendingResponsesCount := s.pendingResponsesCount + 1,
                    pendingLongPollingMessageIds :=
                      if isLongPolling m then setAdd s.pendingLongPollingMessageIds s.lastMessageId
                      else s.pendingLongPollingMessageIds,
                    sessions := mapSet s.sessions sid ({ sess with callbacks := mapSet sess.callbacks s.lastMessageId ⟨cb, m⟩ }) } := by
                show (sendMessage s sid d m p cb).1 = _
                rw [sendMessage_some d m p cb hg]
              rw [hstep] at hlt
              exact hlt
        omega
    | recv msg =>
        rcases onMessage_state_cases s msg with h | ⟨sess, msgId, c, hg, hpc, hid, hc, h⟩
        · exfalso
          have hstep : stepState s (Op.recv msg) = s := h
          rw [hstep] at hlt
          exact lt_irrefl _ hlt
        · refine ⟨msg, sess, msgId, c, rfl, hg, hpc, hid, hc, ?_⟩
          have hstep : stepState s (Op.recv msg) =
              { s with
                sessions := mapSet s.sessions (msg.sessionId.getD "") ({ sess with callbacks := mapDelete sess.callbacks msgId }),
                pendingResponsesCount := s.pendingResponsesCount - 1,
                pendingLongPollingMessageIds := setDelete s.pendingLongPollingMessageIds msgId } := h
          rw [hstep]
    | runAfter sc =>
        exfalso
        have hstep : stepState s (Op.runAfter sc) =
            { s with pendingScripts := (deprecatedRunAfterPendingDispatches s sc).1.pendingScripts } :=
          runAfter_core s sc
        rw [hstep] at hlt
        exact lt_irrefl _ hlt
    | drainTick =>
        exfalso
        have hstep : stepState s Op.drainTick =
            { s with pendingScripts := (drainCheckTask s).1.pendingScripts } :=
          drainCheckTask_core s
        rw [hstep] at hlt
        exact lt_irrefl _ hlt
    | execPending =>
        exfalso
        have hstep : stepState s Op.execPending =
            { s with pendingScripts := (executeAfterPendingDispatches s).1.pendingScripts } :=
          executeAfter_core s
        rw [hstep] at hlt
        exact lt_irrefl _ hlt
  · intro s sid sess id mth prms err res hg hpc hc
    exact onMessage_unmatched_state mth prms err res hg hpc hc
  · intro s sid d m p cb hg
    have hstep := sendMessage_none d m p cb hg
    refine ⟨?_, ?_, ?_, ?_⟩
    · rw [show (sendMessage s sid d m p cb).1 = _ from congrArg Prod.fst hstep]
    · rw [show (sendMessage s sid d m p cb).1 = _ from congrArg Prod.fst hstep]
    · intro hm
      rw [show (sendMessage s sid d m p cb).1 = _ from congrArg Prod.fst hstep]
      show (if isLongPolling m then setAdd s.pendingLongPollingMessageIds s.lastMessageId
        else s.pendingLongPollingMessageIds) = _
      rw [hm]
      simp
    · rw [show (sendMessage s sid d m p cb).2 = _ from congrArg Prod.snd hstep]
  · intro s sid
    cases hg : mapGet s.sessions sid with
    | none => rw [unregisterSession_none hg]
    | some sess => rw [unregisterSession_some hg]
  · intro s sid d m p cb ops hinv hg hm
    have hinv1 : RouterInv (sendMessage s sid d m p cb).1 :=
      routerInv_step hinv (Op.send sid d m p cb)
    have hgap1 : drainGap 1 (sendMessage s sid d m p cb).1 := by
      have h0 := hinv.2.2.2.2.2.2
      unfold drainGap at h0
      rw [nlpTotal_eq] at h0
      have hstep : (sendMessage s sid d m p cb).1 =
          { s with
            lastMessageId := s.lastMessageId + 1,
            pendingResponsesCount := s.pendingResponsesCount + 1,
            pendingLongPollingMessageIds :=
              if isLongPolling m then setAdd s.pendingLongPollingMessageIds s.lastMessageId
              else s.pendingLongPollingMessageIds } := by
        rw [sendMessage_none d m p cb hg]
      rw [hstep]
      unfold drainGap
      rw [nlpTotal_eq]
      show (sessionsNonLPSum s.sessions : Int) +
        (((if isLongPolling m then setAdd s.pendingLongPollingMessageIds s.lastMessageId
          else s.pendingLongPollingMessageIds)).length : Int) + 1 ≤ s.pendingResponsesCount + 1
      rw [hm]
      simp only [Bool.false_eq_true, if_false]
      omega
    have hfinal := steps_inv_gap 1 ops (sendMessage s sid d m p cb).1 hinv1 hgap1
    have hout := hasOutstanding_of_gap_one hfinal.2
    exact ⟨hout, executeAfter_no_fire hout, drainCheckTask_reschedules hout⟩
  · intro s sid sess id c ops hinv hg hc hm
    have hinv1 : RouterInv (unregisterSession s sid).1 :=
      routerInv_step hinv (Op.unregister sid)
    have hgap1 : drainGap 1 (unregisterSession s sid).1 := by
      have h0 := hinv.2.2.2.2.2.2
      have hkeysN := hinv.2.2.2.1
      unfold drainGap at h0
      rw [nlpTotal_eq] at h0
      have hstep : (unregisterSession s sid).1 =
          { s with sessions := mapDelete s.sessions sid } := by
        rw [unregisterSession_some hg]
      rw [hstep]
      unfold drainGap
      rw [nlpTotal_eq]
      show (sessionsNonLPSum (mapDelete s.sessions sid) : Int) +
        (s.pendingLongPollingMessageIds.length : Int) + 1 ≤ s.pendingResponsesCount
      have hdel := sessionsNonLPSum_mapDelete hkeysN hg
      have hone : 1 ≤ cbNonLP sess.callbacks :=
        cbNonLP_pos_of_mem (mapGet_eq_some_mem hc) hm
      omega
    have hfinal := steps_inv_gap 1 ops (unregisterSession s sid).1 hinv1 hgap1
    have hout := hasOutstanding_of_gap_one hfinal.2
    exact ⟨hout, executeAfter_no_fire hout, drainCheckTask_reschedules hout⟩

/-- Witness for C9: after a send to the unknown session "b", the drain
condition stays unsatisfied even after the stale reply arrives and a drain
tick runs. -/
theorem c9_drain_accounting_leak_witness :
    RouterInv (⟨0, 1, 0, [], [("a", ⟨7, [], none⟩)], []⟩ : SessionRouterState) ∧
    mapGet (⟨0, 1, 0, [], [("a", ⟨7, [], none⟩)], []⟩ : SessionRouterState).sessions "b" = none ∧
    isLongPolling "DOM.getDocument" = false ∧
    hasOutstandingNonLongPollingRequests
      (steps (sendMessage (⟨0, 1, 0, [], [("a", ⟨7, [], none⟩)], []⟩ : SessionRouterState)
        "b" "DOM" "DOM.getDocument" none 1).1
        [Op.recv ⟨some 1, some "b", none, none, none, none⟩, Op.drainTick]) = true :=
  ⟨by decide, by decide, by decide,
    (c9_drain_accounting_leak.2.2.2.2.1
      (⟨0, 1, 0, [], [("a", ⟨7, [], none⟩)], []⟩ : SessionRouterState)
      "b" "DOM" "DOM.getDocument" none 1
      [Op.recv ⟨some 1, some "b", none, none, none, none⟩, Op.drainTick]
      (by decide) (by decide) (by decide)).1⟩

theorem typeof_eq_undefined_iff (v : JSVal) :
    (typeof v = "undefined") ↔ v = JSVal.undef := by
  cases v <;> simp [typeof]

theorem prepareParametersLoop_eq_claimValidate (m : String) (full : List CommandParameter) :
    ∀ (rest : List CommandParameter) (args : List JSVal) (acc : JSObj) (hp : Bool),
      prepareParametersLoop m full rest args acc hp = claimValidate m full rest args acc hp := by
  intro rest
  induction rest with
  | nil =>
      intro args acc hp
      cases args with
      | nil => simp [prepareParametersLoop, claimValidate]
      | cons v vs => simp [prepareParametersLoop, claimValidate]
  | cons param ps ih =>
      intro args acc hp
      cases args with
      | nil =>
          cases hopt : param.optional with
          | true => simp [prepareParametersLoop, claimValidate, hopt, typeof, ih]
          | false => simp [prepareParametersLoop, claimValidate, hopt]
      | cons v vs =>
          cases hopt : param.optional with
          | false =>
              simp only [prepareParametersLoop, claimValidate, hopt, List.length_cons,
                List.tail_cons]
              simp [ih]
          | true =>
              by_cases hv : v = JSVal.undef
              · subst hv
                simp [prepareParametersLoop, claimValidate, hopt, typeof, ih]
              · have hty : ¬ (typeof v = "undefined") := fun hh =>
                  hv ((typeof_eq_undefined_iff v).1 hh)
                simp [prepareParametersLoop, claimValidate, hopt, hv, hty, ih]

/-- Counterexample to C5 as stated: the command declares
`[a (optional, number), b (required, number)]` and is called with arguments
`[undefined, 5]`. The claim, reading "the next argument is absent" as
no-arguments-left, predicts a type-mismatch failure on `a` (resolve `null`,
one reported error, nothing sent); reading "absent" as an undefined
argument, it predicts skipping `a` without consuming, so `b` consumes
`undefined` and fails. The code instead consumes the `undefined` for the
optional `a` (`args.shift()`), binds `b := 5`, and hands the call to the
router. -/
theorem c5_validation_policy_counterexample :
    sendMessageToBackendPromise "Foo.bar" [⟨"a", "number", true⟩, ⟨"b", "number", false⟩]
      [JSVal.undef, JSVal.vNum 5] true =
      BackendCallStep.sentViaRouter (some [("b", JSVal.vNum 5)]) := by
  decide

/-- C5 amended: the validation processes declared parameters in order; a
required parameter with no arguments left fails with a message embedding the
full declared signature; an optional parameter whose next argument is absent
or is the `undefined` value is skipped, consuming the argument when one is
present; otherwise one argument is consumed and a runtime-type mismatch
fails; leftover arguments after the declared parameters fail; and on any
validation failure exactly one error is reported through the error callback,
the call resolves to `null`, and nothing reaches the transport. -/
theorem c5_validation_policy :
    (∀ method parameters args,
      prepareParameters method parameters args =
        claimValidate method parameters parameters args [] false) ∧
    (∀ method parameters args msg routerPresent,
      prepareParameters method parameters args = Except.error msg →
      sendMessageToBackendPromise method parameters args routerPresent =
        BackendCallStep.resolvedNull msg) ∧
    (∀ method parameters,
      invalidNumberOfArgumentsMessage method parameters =
        "Protocol Error: Invalid number of arguments for method \x27" ++ method ++
        "\x27 call. It must have the following arguments " ++
        stringifyParameters parameters ++ "\x27.") ∧
    (∀ method n,
      extraArgumentsMessage method n =
        "Protocol Error: Extra " ++ toString n ++
        " arguments in a call to method \x27" ++ method ++ "\x27.") := by
  refine ⟨?_, ?_, fun method parameters => rfl, fun method n => rfl⟩
  · intro method parameters args
    exact prepareParametersLoop_eq_claimValidate method parameters parameters args [] false
  · intro method parameters args msg routerPresent h
    unfold sendMessageToBackendPromise
    rw [h]

/-- Witness for C5 (amended): a required parameter with no argument fails
validation with the full-signature message and resolves `null` without
reaching the router. -/
theorem c5_validation_policy_witness :
    prepareParameters "Foo.bar" [⟨"x", "number", false⟩] [] =
      Except.error (invalidNumberOfArgumentsMessage "Foo.bar" [⟨"x", "number", false⟩]) ∧
    sendMessageToBackendPromise "Foo.bar" [⟨"x", "number", false⟩] [] true =
      BackendCallStep.resolvedNull
        (invalidNumberOfArgumentsMessage "Foo.bar" [⟨"x", "number", false⟩]) :=
  ⟨by decide,
    c5_validation_policy.2.1 "Foo.bar" [⟨"x", "number", false⟩] []
      (invalidNumberOfArgumentsMessage "Foo.bar" [⟨"x", "number", false⟩]) true (by decide)⟩

/-- C4: a generated promise-returning command only ever resolves (never
rejects): a validation failure resolves `null` without reaching the
transport; a reply carrying an error resolves `null`; a success reply
resolves `undefined` when the method declares no reply fields (and when the
reply carries no result object), and otherwise resolves
`result[firstReplyField]` (`undefined` when the field is missing), with the
remaining declared reply fields never consulted. -/
theorem c4_promise_resolution :
    (∀ suppress method replyArgs error result,
      ((promiseReplyCallback suppress method replyArgs error result).1).isResolve = true) ∧
    (∀ suppress method replyArgs e result,
      (promiseReplyCallback suppress method replyArgs (some e) result).1 =
        Settle.resolve Resolved.rNull) ∧
    (∀ suppress method result,
      (promiseReplyCallback suppress method [] none result).1 =
        Settle.resolve Resolved.rUndefined) ∧
    (∀ suppress method a rest r,
      (promiseReplyCallback suppress method (a :: rest) none (some r)).1 =
        Settle.resolve
          (match mapGet r a with
           | some v => Resolved.rVal v
           | none => Resolved.rUndefined) ∧
      promiseReplyCallback suppress method (a :: rest) none (some r) =
        promiseReplyCallback suppress method [a] none (some r)) ∧
    (∀ suppress method replyArgs,
      (promiseReplyCallback suppress method replyArgs none none).1 =
        Settle.resolve Resolved.rUndefined) ∧
    (∀ method parameters args routerPresent msg,
      prepareParameters method parameters args = Except.error msg →
      sendMessageToBackendPromise method parameters args routerPresent =
        BackendCallStep.resolvedNull msg) := by
  refine ⟨?_, ?_, ?_, ?_, ?_, ?_⟩
  · intro suppress method replyArgs error result
    cases error with
    | some e => rfl
    | none =>
        cases result with
        | none => cases replyArgs <;> rfl
        | some r => cases replyArgs <;> rfl
  · intro suppress method replyArgs e result
    rfl
  · intro suppress method result
    cases result <;> rfl
  · intro suppress method a rest r
    exact ⟨rfl, rfl⟩
  · intro suppress method replyArgs
    cases replyArgs <;> rfl
  · intro method parameters args routerPresent msg h
    unfold sendMessageToBackendPromise
    rw [h]

/-- Witness for C4: an allow-listed connection-closed error resolves `null`
without logging; a success reply with a declared reply field surfaces only
that field. -/
theorem c4_promise_resolution_witness :
    (promiseReplyCallback false "DOM.getDocument" ["root"]
      (some ⟨"boom", ConnectionClosedErrorCode, none⟩) none).1 =
      Settle.resolve Resolved.rNull ∧
    (promiseReplyCallback false "DOM.getDocument" ["root", "extra"] none
      (some [("root", JSVal.vNum 4), ("extra", JSVal.vNum 5)])).1 =
      Settle.resolve (Resolved.rVal (JSVal.vNum 4)) ∧
    sendMessageToBackendPromise "Foo.bar" [⟨"x", "number", false⟩] [JSVal.vStr "s"] true =
      BackendCallStep.resolvedNull
        (invalidTypeMessage "Foo.bar" "x" "number" "string") :=
  ⟨c4_promise_resolution.2.1 false "DOM.getDocument" ["root"]
      ⟨"boom", ConnectionClosedErrorCode, none⟩ none,
    by
      rw [(c4_promise_resolution.2.2.2.1 false "DOM.getDocument" "root" ["extra"]
        [("root", JSVal.vNum 4), ("extra", JSVal.vNum 5)]).1]
      decide,
    c4_promise_resolution.2.2.2.2.2 "Foo.bar" [⟨"x", "number", false⟩] [JSVal.vStr "s"] true
      (invalidTypeMessage "Foo.bar" "x" "number" "string") (by decide)⟩

/-- Counterexample to C8 as stated: supplying exactly one of the two claimed
options -- a connection, with no parent target and empty session id -- is
rejected by the constructor (it throws), whereas the claim says exactly one
of {connection, parentTarget+sessionId} is accepted. -/
theorem c8_constructor_invariant_counterexample :
    targetBaseConstruct false none "" (some 5) 0 7 =
      Except.error targetConstructorErrorText := by
  decide

/-- C8 amended: the constructor raises immediately -- returning the error
before any router is built or session registered -- exactly when a
connection is supplied without a parent target, or a non-empty session id is
supplied without a parent target, or a connection and a non-empty session id
are supplied together. In particular a child with a parent and a session id
reuses the parent's router and registers its session; a target with a parent
and neither connection nor session id is accepted with a factory-made
router. -/
theorem c8_constructor_invariant :
    (∀ n p sid c f t,
      (targetBaseConstruct n p sid c f t).isOk =
        !((p.isNone && c.isSome) || (p.isNone && decide (sid ≠ "")) ||
          (c.isSome && decide (sid ≠ "")))) ∧
    (∀ n c f t, targetBaseConstruct n none "" (some c) f t =
      Except.error targetConstructorErrorText) ∧
    (∀ n sid f t, sid ≠ "" → targetBaseConstruct n none sid none f t =
      Except.error targetConstructorErrorText) ∧
    (∀ n pr sid t f, sid ≠ "" →
      targetBaseConstruct n (some ⟨some pr⟩) sid none f t =
        Except.ok (registerSession pr t sid none).1) ∧
    (∀ n p f t, targetBaseConstruct n (some p) "" none f t =
      Except.ok (registerSession (initialRouter f) t "" none).1) := by
  refine ⟨?_, ?_, ?_, ?_, ?_⟩
  · intro n p sid c f t
    unfold targetBaseConstruct
    by_cases hsid : sid = ""
    · subst hsid
      cases p <;> cases c <;> simp [Except.isOk, Except.toBool]
    · cases p <;> cases c <;> simp [Except.isOk, Except.toBool, hsid]
  · intro n c f t
    unfold targetBaseConstruct
    simp
  · intro n sid f t hsid
    unfold targetBaseConstruct
    simp [hsid]
  · intro n pr sid t f hsid
    unfold targetBaseConstruct
    simp [hsid]
  · intro n p f t
    unfold targetBaseConstruct
    simp
    cases hp : p.router <;> rfl

/-- Witness for C8 (amended): a child with a parent router and session id
"abc" is accepted and registers its session on the parent's router. -/
theorem c8_constructor_invariant_witness :
    ("abc" : String) ≠ "" ∧
    targetBaseConstruct false (some ⟨some (initialRouter 3)⟩) "abc" none 0 7 =
      Except.ok (registerSession (initialRouter 3) 7 "abc" none).1 :=
  ⟨by decide,
    c8_constructor_invariant.2.2.2.1 false (initialRouter 3) "abc" 7 0 (by decide)⟩
